import Mathlib

/-!
Verification of the ms3d model-file decoder.

The Rust sources (src/lib.rs, src/model.rs, src/read.rs, src/de.rs) are
shallowly embedded below.  Bytes are `Nat` values (real inputs satisfy
`byteValid`, i.e. every byte is `< 256`); `f32` fields are kept as their raw
little-endian 32-bit patterns (the decoder never computes with floats, it only
reinterprets bytes); Rust `String`/`PathBuf` values are represented by their
UTF-8 byte content, together with an executable UTF-8 validity check mirroring
`str::from_utf8`.  Each `unsafe read_type::<T>()` of a `#[repr(C, packed)]`
struct is embedded as in-order little-endian field reads of the exact packed
layout (de.rs), with every validation performed after the struct's bytes have
been consumed, exactly as in the Rust code, which destructures first and
converts afterwards.  Fallible operations return `Except Err`.
-/

namespace Ms3d

/-- Error outcomes of a decode, one constructor per distinct failure
produced by the Rust code: `UnexpectedEof` from the byte sources, and the
`ensure!`/`bail!`/`?` failures in lib.rs. -/
inductive Err where
  | eof
  | invalidHeader
  | unsupportedVersion (v : Int)
  | invalidFlags (bits : Nat)
  | invalidUtf8
  | unsupportedCommentSubVersion (v : Int)
  | invalidNumModelComments
  | unsupportedVertexExSubVersion (v : Int)
  | unsupportedJointExSubVersion (v : Int)
  | unsupportedModelExSubVersion (v : Int)
deriving DecidableEq

/-- Classification from the spec's error taxonomy: `true` for
format-violation errors (taxonomy class b), `false` for truncation (class a)
and encoding (class c) errors. -/
def isValidationError : Err → Bool
  | .eof => false
  | .invalidUtf8 => false
  | _ => true

/-- A byte sequence (each entry is one byte of the input). -/
abbrev Bytes := List Nat

/-- Whether every entry of a byte sequence is an actual byte value. -/
def byteValid (l : Bytes) : Prop := ∀ b ∈ l, b < 256

instance (l : Bytes) : Decidable (byteValid l) :=
  inferInstanceAs (Decidable (∀ b ∈ l, b < 256))

/-- The decoding computation: consume a prefix of the remaining bytes and
produce a value, or abort with an error (the Rust `Result<T>` threaded
through `Reader<R>`). -/
abbrev P (α : Type) : Type := Bytes → Except Err (α × Bytes)

def ppure {α : Type} (a : α) : P α := fun bs => .ok (a, bs)

def pfail {α : Type} (e : Err) : P α := fun _ => .error e

def pbind {α β : Type} (p : P α) (f : α → P β) : P β := fun bs =>
  match p bs with
  | .ok (a, bs1) => f a bs1
  | .error e => .error e

/-- Lift a pure fallible conversion (e.g. `convert_flags`) into the reader. -/
def plift {α : Type} : Except Err α → P α
  | .ok a => ppure a
  | .error e => pfail e

/-! ## Byte sources (src/read.rs)

`SliceReader::read` fails without consuming anything when fewer than `len`
bytes remain; `IoReader::read` delegates to `io::Read::read_exact`, which on
a too-short source fails after having drained it.  Both are modelled as a
state-passing function returning the result together with the state after
the call.  A failed read aborts the whole decode, so the decoder itself
never observes the post-error state. -/

def sliceReaderRead (s : Bytes) (n : Nat) : Except Err Bytes × Bytes :=
  if n > s.length then (.error .eof, s)
  else (.ok (s.take n), s.drop n)

def ioReaderRead (s : Bytes) (n : Nat) : Except Err Bytes × Bytes :=
  if n > s.length then (.error .eof, [])
  else (.ok (s.take n), s.drop n)

/-- The `BufReadExact` capability as seen by the decoding core. -/
abbrev RdFn := Nat → P Bytes

/-- Run a backend's read inside the decoding computation. -/
def liftSrc (raw : Bytes → Nat → Except Err Bytes × Bytes) : RdFn :=
  fun n bs =>
    match raw bs n with
    | (.ok out, bs1) => .ok (out, bs1)
    | (.error e, _) => .error e

/-- The canonical byte source used when stating properties of the decoder. -/
def readExact : RdFn := liftSrc sliceReaderRead

/-! ## Primitive value readers -/

/-- Little-endian value of a byte sequence. -/
def leWord (l : Bytes) : Nat := l.foldr (fun b acc => b + 256 * acc) 0

/-- Two's-complement interpretation of a 32-bit word. -/
def toI32 (w : Nat) : Int :=
  if w < 2147483648 then (w : Int) else (w : Int) - 4294967296

/-- Two's-complement interpretation of a byte. -/
def toI8 (b : Nat) : Int :=
  if b < 128 then (b : Int) else (b : Int) - 256

/-- The Rust cast `v as usize` on an `i32`, for a 64-bit target:
sign-extension, i.e. reduction modulo `2^64`. -/
def i32AsUsize (v : Int) : Nat := (v % 18446744073709551616).toNat

def read_u8 (rd : RdFn) : P Nat := pbind (rd 1) fun l => ppure (leWord l)

def read_u16 (rd : RdFn) : P Nat := pbind (rd 2) fun l => ppure (leWord l)

def read_u32 (rd : RdFn) : P Nat := pbind (rd 4) fun l => ppure (leWord l)

def read_i32 (rd : RdFn) : P Int := pbind (rd 4) fun l => ppure (toI32 (leWord l))

def read_i8 (rd : RdFn) : P Int := pbind (rd 1) fun l => ppure (toI8 (leWord l))

/-- An `f32` field, kept as its raw little-endian bit pattern. -/
def read_f32 (rd : RdFn) : P Nat := read_u32 rd

/-- `Reader::read_vec`: read `n` records with the given record reader. -/
def read_vec {α : Type} : Nat → P α → P (List α)
  | 0, _ => ppure []
  | n + 1, p => pbind p fun x => pbind (read_vec n p) fun xs => ppure (x :: xs)

/-! ## String and flag conversions (src/lib.rs) -/

/-- `memchr::memchr`: index of the first occurrence of `needle`. -/
def memchr (needle : Nat) : Bytes → Option Nat
  | [] => none
  | b :: l => if b = needle then some 0 else (memchr needle l).map (· + 1)

/-- Continuation byte of a UTF-8 sequence (`0x80..=0xBF`). -/
def utf8Cont (b : Nat) : Bool := decide (128 ≤ b) && decide (b < 192)

/-- Executable UTF-8 validity check, mirroring `str::from_utf8` /
`String::from_utf8` (RFC 3629: no overlong forms, no surrogates, max
U+10FFFF). -/
def utf8Valid : Bytes → Bool
  | [] => true
  | b :: l =>
    if b < 128 then utf8Valid l
    else if b < 194 then false
    else if b < 224 then
      match l with
      | c :: l2 => utf8Cont c && utf8Valid l2
      | [] => false
    else if b = 224 then
      match l with
      | c :: d :: l2 => (decide (160 ≤ c) && decide (c < 192)) && utf8Cont d && utf8Valid l2
      | _ => false
    else if b < 237 then
      match l with
      | c :: d :: l2 => utf8Cont c && utf8Cont d && utf8Valid l2
      | _ => false
    else if b = 237 then
      match l with
      | c :: d :: l2 => (decide (128 ≤ c) && decide (c < 160)) && utf8Cont d && utf8Valid l2
      | _ => false
    else if b < 240 then
      match l with
      | c :: d :: l2 => utf8Cont c && utf8Cont d && utf8Valid l2
      | _ => false
    else if b = 240 then
      match l with
      | c :: d :: e :: l2 =>
        (decide (144 ≤ c) && decide (c < 192)) && utf8Cont d && utf8Cont e && utf8Valid l2
      | _ => false
    else if b < 244 then
      match l with
      | c :: d :: e :: l2 => utf8Cont c && utf8Cont d && utf8Cont e && utf8Valid l2
      | _ => false
    else if b = 244 then
      match l with
      | c :: d :: e :: l2 =>
        (decide (128 ≤ c) && decide (c < 144)) && utf8Cont d && utf8Cont e && utf8Valid l2
      | _ => false
    else false

/-- `convert_string`: take the bytes before the first NUL (or the whole
array when there is none) and require them to be valid UTF-8. -/
def convert_string (bytes : Bytes) : Except Err Bytes :=
  let vec := match memchr 0 bytes with
    | some i => bytes.take i
    | none => bytes
  if utf8Valid vec then .ok vec else .error .invalidUtf8

/-- `convert_path`: identical byte-level behavior to `convert_string`
(`String` to `PathBuf` conversion preserves the bytes). -/
def convert_path (bytes : Bytes) : Except Err Bytes := convert_string bytes

/-- The named flag bits of `model.rs`. -/
def SELECTED : Nat := 1
def HIDDEN : Nat := 2
def SELECTED2 : Nat := 4
def DIRTY : Nat := 8

/-- `Flags::all()`: union of every named flag. -/
def ALL_FLAGS : Nat := SELECTED ||| HIDDEN ||| SELECTED2 ||| DIRTY

/-- `convert_flags`: `Flags::from_bits` succeeds when no bit outside the
named flags is set, and `allowed.contains(flags)` requires the set bits to
lie inside the allowed mask. -/
def convert_flags (bits allowed : Nat) : Except Err Nat :=
  if bits &&& (255 ^^^ ALL_FLAGS) = 0 then
    if allowed &&& bits = bits then .ok bits else .error (.invalidFlags bits)
  else .error (.invalidFlags bits)

/-! ## The public model tree (src/model.rs) -/

structure Header where
  version : Int
deriving DecidableEq

structure Vertex where
  flags : Nat
  vertex : List Nat
  bone_id : Int
  reference_count : Nat
deriving DecidableEq

def Vertex.ALLOWED_FLAGS : Nat := SELECTED ||| SELECTED2 ||| HIDDEN

structure Triangle where
  flags : Nat
  vertex_indices : List Nat
  vertex_normals : List (List Nat)
  s : List Nat
  t : List Nat
  smoothing_group : Nat
  group_index : Nat
deriving DecidableEq

def Triangle.ALLOWED_FLAGS : Nat := SELECTED ||| SELECTED2 ||| HIDDEN

structure Group where
  flags : Nat
  name : Bytes
  triangle_indices : List Nat
  material_index : Int
deriving DecidableEq

def Group.ALLOWED_FLAGS : Nat := SELECTED ||| HIDDEN

structure Material where
  name : Bytes
  ambient : List Nat
  diffuse : List Nat
  specular : List Nat
  emissive : List Nat
  shininess : Nat
  transparency : Nat
  mode : Nat
  texture : Bytes
  alphamap : Bytes
deriving DecidableEq

structure KeyFrameData where
  animation_fps : Nat
  current_time : Nat
  total_frames : Int
deriving DecidableEq

structure KeyFrameRot where
  time : Nat
  rotation : List Nat
deriving DecidableEq

structure KeyFramePos where
  time : Nat
  position : List Nat
deriving DecidableEq

structure Joint where
  flags : Nat
  name : Bytes
  parent_name : Bytes
  rotation : List Nat
  position : List Nat
  key_frames_rot : List KeyFrameRot
  key_frames_trans : List KeyFramePos
deriving DecidableEq

def Joint.ALLOWED_FLAGS : Nat := SELECTED ||| DIRTY

structure Comment where
  index : Int
  comment : Bytes
deriving DecidableEq

structure Comments where
  sub_version : Int
  group_comments : List Comment
  material_comments : List Comment
  joint_comments : List Comment
  model_comment : Option Comment
deriving DecidableEq

structure VertexEx1 where
  bone_ids : List Int
  weights : List Nat
deriving DecidableEq

structure VertexEx2 where
  bone_ids : List Int
  weights : List Nat
  extra : Nat
deriving DecidableEq

structure VertexEx3 where
  bone_ids : List Int
  weights : List Nat
  extra : List Nat
deriving DecidableEq

inductive VertexExInfo where
  | SubVersion1 (records : List VertexEx1)
  | SubVersion2 (records : List VertexEx2)
  | SubVersion3 (records : List VertexEx3)
deriving DecidableEq

structure JointEx where
  color : List Nat
deriving DecidableEq

structure JointExInfo where
  sub_version : Int
  joint_ex : List JointEx
deriving DecidableEq

structure ModelEx where
  joint_size : Nat
  transparency_mode : Int
  alpha_ref : Nat
deriving DecidableEq

structure ModelExInfo where
  sub_version : Int
  model_ex : ModelEx
deriving DecidableEq

structure Model where
  header : Header
  vertices : List Vertex
  triangles : List Triangle
  groups : List Group
  materials : List Material
  key_frame_data : KeyFrameData
  joints : List Joint
  comments : Comments
  vertex_ex_info : VertexExInfo
  joint_ex_info : JointExInfo
  model_ex_info : ModelExInfo
deriving DecidableEq

/-! ## Section readers (src/lib.rs), parametric in the byte source -/

/-- `read_header`: one 14-byte packed `de::Header`, split into the 10-byte
magic and the little-endian version, then the two `ensure!` checks in the
order they appear in the Rust code. -/
def read_header (rd : RdFn) : P Header :=
  pbind (rd 14) fun raw =>
    if raw.take 10 = [77, 83, 51, 68, 48, 48, 48, 48, 48, 48] then
      if toI32 (leWord (raw.drop 10)) = 4 then ppure ⟨toI32 (leWord (raw.drop 10))⟩
      else pfail (.unsupportedVersion (toI32 (leWord (raw.drop 10))))
    else pfail .invalidHeader

/-- `read_vertex`: the 15-byte packed `de::Vertex`, then the flag check. -/
def read_vertex (rd : RdFn) : P Vertex :=
  pbind (read_u8 rd) fun flags =>
  pbind (read_vec 3 (read_f32 rd)) fun vertex =>
  pbind (read_i8 rd) fun bone_id =>
  pbind (read_u8 rd) fun reference_count =>
  pbind (plift (convert_flags flags Vertex.ALLOWED_FLAGS)) fun flags =>
  ppure ⟨flags, vertex, bone_id, reference_count⟩

def read_vertices (rd : RdFn) : P (List Vertex) :=
  pbind (read_u16 rd) fun len => read_vec len (read_vertex rd)

/-- Tail of `read_triangle` after its 16-bit on-disk flag field: the
remaining 68 bytes of the packed `de::Triangle`, then the flag conversion
`convert_flags(flags as u8, ..)` — the cast keeps only the low byte. -/
def read_triangle_body (rd : RdFn) (flags : Nat) : P Triangle :=
  pbind (read_vec 3 (read_u16 rd)) fun vertex_indices =>
  pbind (read_vec 3 (read_vec 3 (read_f32 rd))) fun vertex_normals =>
  pbind (read_vec 3 (read_f32 rd)) fun s =>
  pbind (read_vec 3 (read_f32 rd)) fun t =>
  pbind (read_u8 rd) fun smoothing_group =>
  pbind (read_u8 rd) fun group_index =>
  pbind (plift (convert_flags (flags % 256) Triangle.ALLOWED_FLAGS)) fun flags =>
  ppure ⟨flags, vertex_indices, vertex_normals, s, t, smoothing_group, group_index⟩

def read_triangle (rd : RdFn) : P Triangle :=
  pbind (read_u16 rd) (read_triangle_body rd)

def read_triangles (rd : RdFn) : P (List Triangle) :=
  pbind (read_u16 rd) fun len => read_vec len (read_triangle rd)

/-- `read_group`: packed `de::GroupPrefix` (flags, 32-byte name, triangle
count), then the flag and string conversions, then the index list, then the
packed `de::GroupSuffix` (material index) — the one non-contiguous layout. -/
def read_group (rd : RdFn) : P Group :=
  pbind (read_u8 rd) fun flags =>
  pbind (rd 32) fun name =>
  pbind (read_u16 rd) fun num_triangles =>
  pbind (plift (convert_flags flags Group.ALLOWED_FLAGS)) fun flags =>
  pbind (plift (convert_string name)) fun name =>
  pbind (read_vec num_triangles (read_u16 rd)) fun triangle_indices =>
  pbind (read_i8 rd) fun material_index =>
  ppure ⟨flags, name, triangle_indices, material_index⟩

def read_groups (rd : RdFn) : P (List Group) :=
  pbind (read_u16 rd) fun len => read_vec len (read_group rd)

/-- `read_material`: the 361-byte packed `de::Material`, then the name and
path conversions. -/
def read_material (rd : RdFn) : P Material :=
  pbind (rd 32) fun name =>
  pbind (read_vec 4 (read_f32 rd)) fun ambient =>
  pbind (read_vec 4 (read_f32 rd)) fun diffuse =>
  pbind (read_vec 4 (read_f32 rd)) fun specular =>
  pbind (read_vec 4 (read_f32 rd)) fun emissive =>
  pbind (read_f32 rd) fun shininess =>
  pbind (read_f32 rd) fun transparency =>
  pbind (read_u8 rd) fun mode =>
  pbind (rd 128) fun texture =>
  pbind (rd 128) fun alphamap =>
  pbind (plift (convert_string name)) fun name =>
  pbind (plift (convert_path texture)) fun texture =>
  pbind (plift (convert_path alphamap)) fun alphamap =>
  ppure ⟨name, ambient, diffuse, specular, emissive, shininess, transparency,
    mode, texture, alphamap⟩

def read_materials (rd : RdFn) : P (List Material) :=
  pbind (read_u16 rd) fun len => read_vec len (read_material rd)

def read_key_frame_data (rd : RdFn) : P KeyFrameData :=
  pbind (read_f32 rd) fun animation_fps =>
  pbind (read_f32 rd) fun current_time =>
  pbind (read_i32 rd) fun total_frames =>
  ppure ⟨animation_fps, current_time, total_frames⟩

def read_key_frame_rot (rd : RdFn) : P KeyFrameRot :=
  pbind (read_f32 rd) fun time =>
  pbind (read_vec 3 (read_f32 rd)) fun rotation =>
  ppure ⟨time, rotation⟩

def read_key_frame_pos (rd : RdFn) : P KeyFramePos :=
  pbind (read_f32 rd) fun time =>
  pbind (read_vec 3 (read_f32 rd)) fun position =>
  ppure ⟨time, position⟩

/-- `read_joint`: packed `de::JointPrefix`, then the flag and string
conversions, then the two keyframe lists. -/
def read_joint (rd : RdFn) : P Joint :=
  pbind (read_u8 rd) fun flags =>
  pbind (rd 32) fun name =>
  pbind (rd 32) fun parent_name =>
  pbind (read_vec 3 (read_f32 rd)) fun rotation =>
  pbind (read_vec 3 (read_f32 rd)) fun position =>
  pbind (read_u16 rd) fun num_key_frames_rot =>
  pbind (read_u16 rd) fun num_key_frames_trans =>
  pbind (plift (convert_flags flags Joint.ALLOWED_FLAGS)) fun flags =>
  pbind (plift (convert_string name)) fun name =>
  pbind (plift (convert_string parent_name)) fun parent_name =>
  pbind (read_vec num_key_frames_rot (read_key_frame_rot rd)) fun key_frames_rot =>
  pbind (read_vec num_key_frames_trans (read_key_frame_pos rd)) fun key_frames_trans =>
  ppure ⟨flags, name, parent_name, rotation, position, key_frames_rot, key_frames_trans⟩

def read_joints (rd : RdFn) : P (List Joint) :=
  pbind (read_u16 rd) fun len => read_vec len (read_joint rd)

/-- `read_string`: exactly `len` bytes, required to be valid UTF-8. -/
def read_string (rd : RdFn) (len : Nat) : P Bytes :=
  pbind (rd len) fun l =>
    if utf8Valid l then ppure l else pfail .invalidUtf8

/-- `read_comment`: the 8-byte packed `de::CommentPrefix` (two `i32`s),
then `comment_length as usize` bytes of UTF-8 text. -/
def read_comment (rd : RdFn) : P Comment :=
  pbind (read_i32 rd) fun index =>
  pbind (read_i32 rd) fun comment_length =>
  pbind (read_string rd (i32AsUsize comment_length)) fun comment =>
  ppure ⟨index, comment⟩

/-- `read_comments`: sub-version (must be 1), then a `u32` group-comment
count and three `i32` counts, each cast with `as usize`; the model-comment
count may only be 0 or 1. -/
def read_comments (rd : RdFn) : P Comments :=
  pbind (read_i32 rd) fun sub_version =>
  if sub_version = 1 then
    pbind (read_u32 rd) fun len0 =>
    pbind (read_vec len0 (read_comment rd)) fun group_comments =>
    pbind (read_i32 rd) fun len1 =>
    pbind (read_vec (i32AsUsize len1) (read_comment rd)) fun material_comments =>
    pbind (read_i32 rd) fun len2 =>
    pbind (read_vec (i32AsUsize len2) (read_comment rd)) fun joint_comments =>
    pbind (read_i32 rd) fun len3 =>
    pbind
      (if i32AsUsize len3 = 0 then ppure none
       else if i32AsUsize len3 = 1 then pbind (read_comment rd) fun c => ppure (some c)
       else pfail .invalidNumModelComments) fun model_comment =>
    ppure ⟨sub_version, group_comments, material_comments, joint_comments, model_comment⟩
  else pfail (.unsupportedCommentSubVersion sub_version)

def read_vertex_ex_1 (rd : RdFn) : P VertexEx1 :=
  pbind (read_vec 3 (read_i8 rd)) fun bone_ids =>
  pbind (read_vec 3 (read_u8 rd)) fun weights =>
  ppure ⟨bone_ids, weights⟩

def read_vertex_ex_2 (rd : RdFn) : P VertexEx2 :=
  pbind (read_vec 3 (read_i8 rd)) fun bone_ids =>
  pbind (read_vec 3 (read_u8 rd)) fun weights =>
  pbind (read_u32 rd) fun extra =>
  ppure ⟨bone_ids, weights, extra⟩

def read_vertex_ex_3 (rd : RdFn) : P VertexEx3 :=
  pbind (read_vec 3 (read_i8 rd)) fun bone_ids =>
  pbind (read_vec 3 (read_u8 rd)) fun weights =>
  pbind (read_vec 2 (read_u32 rd)) fun extra =>
  ppure ⟨bone_ids, weights, extra⟩

/-- `read_vertex_ex_info`: the sub-version tag selects the record shape;
`len` is the vertex count from the vertex section. -/
def read_vertex_ex_info (rd : RdFn) (len : Nat) : P VertexExInfo :=
  pbind (read_i32 rd) fun sub_version =>
  if sub_version = 1 then
    pbind (read_vec len (read_vertex_ex_1 rd)) fun l => ppure (.SubVersion1 l)
  else if sub_version = 2 then
    pbind (read_vec len (read_vertex_ex_2 rd)) fun l => ppure (.SubVersion2 l)
  else if sub_version = 3 then
    pbind (read_vec len (read_vertex_ex_3 rd)) fun l => ppure (.SubVersion3 l)
  else pfail (.unsupportedVertexExSubVersion sub_version)

def read_joint_ex (rd : RdFn) : P JointEx :=
  pbind (read_vec 3 (read_f32 rd)) fun color =>
  ppure ⟨color⟩

def read_joint_ex_info (rd : RdFn) (len : Nat) : P JointExInfo :=
  pbind (read_i32 rd) fun sub_version =>
  if sub_version = 1 then
    pbind (read_vec len (read_joint_ex rd)) fun joint_ex =>
    ppure ⟨sub_version, joint_ex⟩
  else pfail (.unsupportedJointExSubVersion sub_version)

def read_model_ex (rd : RdFn) : P ModelEx :=
  pbind (read_f32 rd) fun joint_size =>
  pbind (read_i32 rd) fun transparency_mode =>
  pbind (read_f32 rd) fun alpha_ref =>
  ppure ⟨joint_size, transparency_mode, alpha_ref⟩

def read_model_ex_info (rd : RdFn) : P ModelExInfo :=
  pbind (read_i32 rd) fun sub_version =>
  if sub_version = 1 then
    pbind (read_model_ex rd) fun model_ex =>
    ppure ⟨sub_version, model_ex⟩
  else pfail (.unsupportedModelExSubVersion sub_version)

/-- `read_model`: the eleven sections in file order; the two ex-info record
counts come from the vertex and joint sections already read. -/
def read_model (rd : RdFn) : P Model :=
  pbind (read_header rd) fun header =>
  pbind (read_vertices rd) fun vertices =>
  pbind (read_triangles rd) fun triangles =>
  pbind (read_groups rd) fun groups =>
  pbind (read_materials rd) fun materials =>
  pbind (read_key_frame_data rd) fun key_frame_data =>
  pbind (read_joints rd) fun joints =>
  pbind (read_comments rd) fun comments =>
  pbind (read_vertex_ex_info rd vertices.length) fun vertex_ex_info =>
  pbind (read_joint_ex_info rd joints.length) fun joint_ex_info =>
  pbind (read_model_ex_info rd) fun model_ex_info =>
  ppure ⟨header, vertices, triangles, groups, materials, key_frame_data,
    joints, comments, vertex_ex_info, joint_ex_info, model_ex_info⟩

/-- `Model::from_reader`: decode through the streaming (`IoReader`) backend. -/
def from_reader : P Model := read_model (liftSrc ioReaderRead)

/-- `Model::from_bytes`: decode through the in-memory (`SliceReader`) backend. -/
def from_bytes : P Model := read_model (liftSrc sliceReaderRead)

/-! ## Encoder

Modelled from the spec: the repository contains no encoder; §8 of the spec
quantifies over "an encoder built to the same layout table", so the
definitions below write each record with the documented packed little-endian
layout of §4.2/§6 (the exact field order and widths of de.rs). -/

def encU8 (b : Nat) : Bytes := [b % 256]

def encU16 (k : Nat) : Bytes := [k % 256, k / 256 % 256]

def encU32 (k : Nat) : Bytes :=
  [k % 256, k / 256 % 256, k / 65536 % 256, k / 16777216 % 256]

def encI8 (v : Int) : Bytes := [(v % 256).toNat]

def encI32 (v : Int) : Bytes := encU32 ((v % 4294967296).toNat)

def encF32 (w : Nat) : Bytes := encU32 w

/-- A `usize` length written back into a 32-bit on-disk count field. -/
def encLen32 (n : Nat) : Bytes := encU32 (n % 4294967296)

/-- A string or path written into its fixed-width slot, NUL-padded. -/
def encFixed (w : Nat) (s : Bytes) : Bytes := s ++ List.replicate (w - s.length) 0

def encList {α : Type} (f : α → Bytes) : List α → Bytes
  | [] => []
  | x :: xs => f x ++ encList f xs

def encHeader (h : Header) : Bytes :=
  [77, 83, 51, 68, 48, 48, 48, 48, 48, 48] ++ encI32 h.version

def encVertex (v : Vertex) : Bytes :=
  encU8 v.flags ++ encList encF32 v.vertex ++ encI8 v.bone_id ++ encU8 v.reference_count

def encTriangle (t : Triangle) : Bytes :=
  encU16 t.flags ++ encList encU16 t.vertex_indices ++
    encList (encList encF32) t.vertex_normals ++ encList encF32 t.s ++
    encList encF32 t.t ++ encU8 t.smoothing_group ++ encU8 t.group_index

def encGroup (g : Group) : Bytes :=
  encU8 g.flags ++ encFixed 32 g.name ++ encU16 g.triangle_indices.length ++
    encList encU16 g.triangle_indices ++ encI8 g.material_index

def encMaterial (m : Material) : Bytes :=
  encFixed 32 m.name ++ encList encF32 m.ambient ++ encList encF32 m.diffuse ++
    encList encF32 m.specular ++ encList encF32 m.emissive ++ encF32 m.shininess ++
    encF32 m.transparency ++ encU8 m.mode ++ encFixed 128 m.texture ++
    encFixed 128 m.alphamap

def encKeyFrameData (k : KeyFrameData) : Bytes :=
  encF32 k.animation_fps ++ encF32 k.current_time ++ encI32 k.total_frames

def encKeyFrameRot (k : KeyFrameRot) : Bytes :=
  encF32 k.time ++ encList encF32 k.rotation

def encKeyFramePos (k : KeyFramePos) : Bytes :=
  encF32 k.time ++ encList encF32 k.position

def encJoint (j : Joint) : Bytes :=
  encU8 j.flags ++ encFixed 32 j.name ++ encFixed 32 j.parent_name ++
    encList encF32 j.rotation ++ encList encF32 j.position ++
    encU16 j.key_frames_rot.length ++ encU16 j.key_frames_trans.length ++
    encList encKeyFrameRot j.key_frames_rot ++ encList encKeyFramePos j.key_frames_trans

def encComment (c : Comment) : Bytes :=
  encI32 c.index ++ encLen32 c.comment.length ++ c.comment

def encComments (c : Comments) : Bytes :=
  encI32 c.sub_version ++ encU32 c.group_comments.length ++
    encList encComment c.group_comments ++ encLen32 c.material_comments.length ++
    encList encComment c.material_comments ++ encLen32 c.joint_comments.length ++
    encList encComment c.joint_comments ++
    (match c.model_comment with
     | none => encLen32 0
     | some cm => encLen32 1 ++ encComment cm)

def encVertexEx1 (v : VertexEx1) : Bytes :=
  encList encI8 v.bone_ids ++ encList encU8 v.weights

def encVertexEx2 (v : VertexEx2) : Bytes :=
  encList encI8 v.bone_ids ++ encList encU8 v.weights ++ encU32 v.extra

def encVertexEx3 (v : VertexEx3) : Bytes :=
  encList encI8 v.bone_ids ++ encList encU8 v.weights ++ encList encU32 v.extra

def encVertexExInfo : VertexExInfo → Bytes
  | .SubVersion1 l => encI32 1 ++ encList encVertexEx1 l
  | .SubVersion2 l => encI32 2 ++ encList encVertexEx2 l
  | .SubVersion3 l => encI32 3 ++ encList encVertexEx3 l

def encJointEx (j : JointEx) : Bytes := encList encF32 j.color

def encJointExInfo (j : JointExInfo) : Bytes :=
  encI32 j.sub_version ++ encList encJointEx j.joint_ex

def encModelEx (m : ModelEx) : Bytes :=
  encF32 m.joint_size ++ encI32 m.transparency_mode ++ encF32 m.alpha_ref

def encModelExInfo (m : ModelExInfo) : Bytes :=
  encI32 m.sub_version ++ encModelEx m.model_ex

def encode_model (m : Model) : Bytes :=
  encHeader m.header ++ encU16 m.vertices.length ++ encList encVertex m.vertices ++
    encU16 m.triangles.length ++ encList encTriangle m.triangles ++
    encU16 m.groups.length ++ encList encGroup m.groups ++
    encU16 m.materials.length ++ encList encMaterial m.materials ++
    encKeyFrameData m.key_frame_data ++
    encU16 m.joints.length ++ encList encJoint m.joints ++
    encComments m.comments ++ encVertexExInfo m.vertex_ex_info ++
    encJointExInfo m.joint_ex_info ++ encModelExInfo m.model_ex_info

/-! ## Well-formedness invariants established by a successful decode -/

def word32Valid (l : List Nat) (n : Nat) : Prop :=
  l.length = n ∧ ∀ w ∈ l, w < 4294967296

def i8Range (v : Int) : Prop := -128 ≤ v ∧ v < 128

def i32Range (v : Int) : Prop := -2147483648 ≤ v ∧ v < 2147483648

/-- The lengths producible by `i32 as usize` on a 64-bit target. -/
def usizeI32 (n : Nat) : Prop :=
  n < 2147483648 ∨ (18446744071562067968 ≤ n ∧ n < 18446744073709551616)

/-- A decoded fixed-width name or path: it fitted in its `w`-byte slot, has
no NUL byte, and is valid UTF-8. -/
def strValid (w : Nat) (s : Bytes) : Prop :=
  s.length ≤ w ∧ byteValid s ∧ (∀ b ∈ s, b ≠ 0) ∧ utf8Valid s = true

def WFVertex (v : Vertex) : Prop :=
  convert_flags v.flags Vertex.ALLOWED_FLAGS = .ok v.flags ∧
    word32Valid v.vertex 3 ∧ i8Range v.bone_id ∧ v.reference_count < 256

def WFTriangle (t : Triangle) : Prop :=
  convert_flags t.flags Triangle.ALLOWED_FLAGS = .ok t.flags ∧
    (t.vertex_indices.length = 3 ∧ ∀ i ∈ t.vertex_indices, i < 65536) ∧
    (t.vertex_normals.length = 3 ∧ ∀ n ∈ t.vertex_normals, word32Valid n 3) ∧
    word32Valid t.s 3 ∧ word32Valid t.t 3 ∧
    t.smoothing_group < 256 ∧ t.group_index < 256

def WFGroup (g : Group) : Prop :=
  convert_flags g.flags Group.ALLOWED_FLAGS = .ok g.flags ∧
    strValid 32 g.name ∧ g.triangle_indices.length < 65536 ∧
    (∀ i ∈ g.triangle_indices, i < 65536) ∧ i8Range g.material_index

def WFMaterial (m : Material) : Prop :=
  strValid 32 m.name ∧ word32Valid m.ambient 4 ∧ word32Valid m.diffuse 4 ∧
    word32Valid m.specular 4 ∧ word32Valid m.emissive 4 ∧
    m.shininess < 4294967296 ∧ m.transparency < 4294967296 ∧ m.mode < 256 ∧
    strValid 128 m.texture ∧ strValid 128 m.alphamap

def WFKeyFrameData (k : KeyFrameData) : Prop :=
  k.animation_fps < 4294967296 ∧ k.current_time < 4294967296 ∧ i32Range k.total_frames

def WFKeyFrameRot (k : KeyFrameRot) : Prop :=
  k.time < 4294967296 ∧ word32Valid k.rotation 3

def WFKeyFramePos (k : KeyFramePos) : Prop :=
  k.time < 4294967296 ∧ word32Valid k.position 3

def WFJoint (j : Joint) : Prop :=
  convert_flags j.flags Joint.ALLOWED_FLAGS = .ok j.flags ∧
    strValid 32 j.name ∧ strValid 32 j.parent_name ∧
    word32Valid j.rotation 3 ∧ word32Valid j.position 3 ∧
    j.key_frames_rot.length < 65536 ∧ (∀ k ∈ j.key_frames_rot, WFKeyFrameRot k) ∧
    j.key_frames_trans.length < 65536 ∧ (∀ k ∈ j.key_frames_trans, WFKeyFramePos k)

def WFComment (c : Comment) : Prop :=
  i32Range c.index ∧ usizeI32 c.comment.length ∧ byteValid c.comment ∧
    utf8Valid c.comment = true

def WFComments (c : Comments) : Prop :=
  c.sub_version = 1 ∧
    c.group_comments.length < 4294967296 ∧ (∀ x ∈ c.group_comments, WFComment x) ∧
    usizeI32 c.material_comments.length ∧ (∀ x ∈ c.material_comments, WFComment x) ∧
    usizeI32 c.joint_comments.length ∧ (∀ x ∈ c.joint_comments, WFComment x) ∧
    (∀ x ∈ c.model_comment.toList, WFComment x)

def WFVertexEx1 (v : VertexEx1) : Prop :=
  (v.bone_ids.length = 3 ∧ ∀ b ∈ v.bone_ids, i8Range b) ∧
    (v.weights.length = 3 ∧ ∀ w ∈ v.weights, w < 256)

def WFVertexEx2 (v : VertexEx2) : Prop :=
  (v.bone_ids.length = 3 ∧ ∀ b ∈ v.bone_ids, i8Range b) ∧
    (v.weights.length = 3 ∧ ∀ w ∈ v.weights, w < 256) ∧ v.extra < 4294967296

def WFVertexEx3 (v : VertexEx3) : Prop :=
  (v.bone_ids.length = 3 ∧ ∀ b ∈ v.bone_ids, i8Range b) ∧
    (v.weights.length = 3 ∧ ∀ w ∈ v.weights, w < 256) ∧ word32Valid v.extra 2

def WFVertexExInfo (nv : Nat) : VertexExInfo → Prop
  | .SubVersion1 l => l.length = nv ∧ ∀ x ∈ l, WFVertexEx1 x
  | .SubVersion2 l => l.length = nv ∧ ∀ x ∈ l, WFVertexEx2 x
  | .SubVersion3 l => l.length = nv ∧ ∀ x ∈ l, WFVertexEx3 x

def WFJointExInfo (nj : Nat) (j : JointExInfo) : Prop :=
  j.sub_version = 1 ∧ j.joint_ex.length = nj ∧
    ∀ x ∈ j.joint_ex, word32Valid x.color 3

def WFModelExInfo (m : ModelExInfo) : Prop :=
  m.sub_version = 1 ∧ m.model_ex.joint_size < 4294967296 ∧
    i32Range m.model_ex.transparency_mode ∧ m.model_ex.alpha_ref < 4294967296

def exceptDecEq {ε α : Type} [DecidableEq ε] [DecidableEq α] :
    DecidableEq (Except ε α) := fun a b =>
  match a, b with
  | .ok x, .ok y =>
    if h : x = y then isTrue (by rw [h]) else isFalse (by simp [h])
  | .error x, .error y =>
    if h : x = y then isTrue (by rw [h]) else isFalse (by simp [h])
  | .ok _, .error _ => isFalse (by simp)
  | .error _, .ok _ => isFalse (by simp)

instance {ε α : Type} [DecidableEq ε] [DecidableEq α] : DecidableEq (Except ε α) :=
  exceptDecEq

def WFModel (m : Model) : Prop :=
  m.header.version = 4 ∧
    m.vertices.length < 65536 ∧ (∀ v ∈ m.vertices, WFVertex v) ∧
    m.triangles.length < 65536 ∧ (∀ t ∈ m.triangles, WFTriangle t) ∧
    m.groups.length < 65536 ∧ (∀ g ∈ m.groups, WFGroup g) ∧
    m.materials.length < 65536 ∧ (∀ x ∈ m.materials, WFMaterial x) ∧
    WFKeyFrameData m.key_frame_data ∧
    m.joints.length < 65536 ∧ (∀ j ∈ m.joints, WFJoint j) ∧
    WFComments m.comments ∧
    WFVertexExInfo m.vertices.length m.vertex_ex_info ∧
    WFJointExInfo m.joints.length m.joint_ex_info ∧
    WFModelExInfo m.model_ex_info

/-! ## Reader calculus: exact-consumption and success-invariant lemmas -/

/-- `p` consumes exactly `xs`, producing `a`, whatever follows. -/
def Produces {α : Type} (p : P α) (xs : Bytes) (a : α) : Prop :=
  ∀ rest, p (xs ++ rest) = .ok (a, rest)

theorem produces_ppure {α : Type} (a : α) : Produces (ppure a) [] a :=
  fun _ => rfl

theorem produces_pbind {α β : Type} {p : P α} {f : α → P β} {xs ys : Bytes}
    {a : α} {b : β} (h1 : Produces p xs a) (h2 : Produces (f a) ys b) :
    Produces (pbind p f) (xs ++ ys) b := by
  intro rest
  unfold pbind
  rw [List.append_assoc, h1 (ys ++ rest)]
  exact h2 rest

theorem produces_pbind_eq {α β : Type} {p : P α} {f : α → P β} {xs ys zs : Bytes}
    {a : α} {b : β} (h1 : Produces p xs a) (h2 : Produces (f a) ys b)
    (h3 : zs = xs ++ ys) : Produces (pbind p f) zs b :=
  h3 ▸ produces_pbind h1 h2

theorem produces_pbind_last {α β : Type} {p : P α} {f : α → P β} {xs : Bytes}
    {a : α} {b : β} (h1 : Produces p xs a) (h2 : Produces (f a) [] b) :
    Produces (pbind p f) xs b :=
  produces_pbind_eq h1 h2 (by simp)

theorem produces_plift {α : Type} {e : Except Err α} {a : α} (h : e = .ok a) :
    Produces (plift e) [] a := by
  subst h; exact produces_ppure a

theorem produces_readExact {xs : Bytes} {n : Nat} (h : xs.length = n) :
    Produces (readExact n) xs xs := by
  intro rest
  subst h
  have hn : ¬ (xs.length > (xs ++ rest).length) := by
    simp [List.length_append]
  simp [readExact, liftSrc, sliceReaderRead, hn, List.take_left, List.drop_left]

theorem produces_read_vec {α : Type} {p : P α} {f : α → Bytes} {l : List α}
    (h : ∀ x ∈ l, Produces p (f x) x) :
    Produces (read_vec l.length p) (encList f l) l := by
  induction l with
  | nil => exact produces_ppure []
  | cons x xs ih =>
    show Produces (read_vec (xs.length + 1) p) (f x ++ encList f xs) (x :: xs)
    exact produces_pbind_eq (h x (by simp))
      (produces_pbind_eq (ih (fun y hy => h y (by simp [hy])))
        (produces_ppure _) rfl) (by simp)

theorem pbind_ok_iff {α β : Type} {p : P α} {f : α → P β} {bs : Bytes}
    {b : β} {bs2 : Bytes} :
    pbind p f bs = .ok (b, bs2) ↔
      ∃ a bs1, p bs = .ok (a, bs1) ∧ f a bs1 = .ok (b, bs2) := by
  unfold pbind
  cases h : p bs with
  | ok ab =>
    obtain ⟨a, bs1⟩ := ab
    constructor
    · intro hf
      exact ⟨a, bs1, rfl, hf⟩
    · rintro ⟨a1, bs11, heq, hf⟩
      simp only [Except.ok.injEq, Prod.mk.injEq] at heq
      obtain ⟨rfl, rfl⟩ := heq
      exact hf
  | error e =>
    constructor
    · intro hf
      simp at hf
    · rintro ⟨a1, bs11, heq, hf⟩
      simp at heq

/-- Invariant established by every successful run of `p` from a byte-valid
state: the value satisfies `Q` and the remaining bytes stay byte-valid. -/
def PSound {α : Type} (p : P α) (Q : α → Prop) : Prop :=
  ∀ bs a bs1, byteValid bs → p bs = .ok (a, bs1) → Q a ∧ byteValid bs1

theorem psound_ppure {α : Type} {Q : α → Prop} {a : α} (h : Q a) :
    PSound (ppure a) Q := by
  intro bs a1 bs1 hv heq
  simp only [ppure, Except.ok.injEq, Prod.mk.injEq] at heq
  obtain ⟨rfl, rfl⟩ := heq
  exact ⟨h, hv⟩

theorem psound_pfail {α : Type} {Q : α → Prop} {e : Err} : PSound (pfail e) Q := by
  intro bs a1 bs1 _ heq
  simp [pfail] at heq

theorem psound_plift {α : Type} {Q : α → Prop} {e : Except Err α}
    (h : ∀ a, e = .ok a → Q a) : PSound (plift e) Q := by
  intro bs a1 bs1 hv heq
  cases e with
  | ok x =>
    simp only [plift, ppure, Except.ok.injEq, Prod.mk.injEq] at heq
    obtain ⟨rfl, rfl⟩ := heq
    exact ⟨h x rfl, hv⟩
  | error er => simp [plift, pfail] at heq

theorem psound_pbind {α β : Type} {p : P α} {f : α → P β} {Q1 : α → Prop}
    {Q : β → Prop} (hp : PSound p Q1) (hf : ∀ a, Q1 a → PSound (f a) Q) :
    PSound (pbind p f) Q := by
  intro bs b bs2 hv heq
  obtain ⟨a, bs1, h1, h2⟩ := pbind_ok_iff.mp heq
  obtain ⟨hq1, hv1⟩ := hp bs a bs1 hv h1
  exact hf a hq1 bs1 b bs2 hv1 h2

theorem psound_weaken {α : Type} {p : P α} {Q R : α → Prop} (hp : PSound p Q)
    (h : ∀ a, Q a → R a) : PSound p R := by
  intro bs a bs1 hv heq
  obtain ⟨hq, hv1⟩ := hp bs a bs1 hv heq
  exact ⟨h a hq, hv1⟩

theorem psound_readExact (n : Nat) :
    PSound (readExact n) (fun l => l.length = n ∧ byteValid l) := by
  intro bs a bs1 hv heq
  unfold readExact liftSrc sliceReaderRead at heq
  by_cases h : n > bs.length
  · simp [h] at heq
  · simp only [h, if_false, Except.ok.injEq, Prod.mk.injEq] at heq
    obtain ⟨rfl, rfl⟩ := heq
    refine ⟨⟨?_, ?_⟩, ?_⟩
    · simp [List.length_take]; omega
    · exact fun b hb => hv b (List.take_subset n bs hb)
    · exact fun b hb => hv b (List.drop_subset n bs hb)

theorem psound_read_vec {α : Type} {p : P α} {Q : α → Prop} (hp : PSound p Q) :
    ∀ n, PSound (read_vec n p) (fun l => l.length = n ∧ ∀ x ∈ l, Q x) := by
  intro n
  induction n with
  | zero => exact psound_ppure (by simp)
  | succ k ih =>
    show PSound (pbind p _) _
    refine psound_pbind hp (fun x hx => ?_)
    refine psound_pbind ih (fun xs hxs => psound_ppure ?_)
    refine ⟨by simp [hxs.1], ?_⟩
    intro y hy
    rcases List.mem_cons.mp hy with rfl | hmem
    · exact hx
    · exact hxs.2 y hmem

/-! ## Primitive value lemmas -/

theorem leWord_lt {l : Bytes} (hv : byteValid l) : leWord l < 256 ^ l.length := by
  induction l with
  | nil => simp [leWord]
  | cons b t ih =>
    have hb : b < 256 := hv b (by simp)
    have ht : leWord t < 256 ^ t.length := ih (fun x hx => hv x (by simp [hx]))
    have : leWord (b :: t) = b + 256 * leWord t := by simp [leWord]
    rw [this]
    calc b + 256 * leWord t ≤ 255 + 256 * (256 ^ t.length - 1) := by
          have h1 : leWord t ≤ 256 ^ t.length - 1 := by omega
          have h2 : 256 * leWord t ≤ 256 * (256 ^ t.length - 1) :=
            Nat.mul_le_mul_left 256 h1
          omega
      _ < 256 ^ (t.length + 1) := by
          have hpos : 1 ≤ 256 ^ t.length := Nat.one_le_pow _ _ (by norm_num)
          rw [pow_succ]
          omega

theorem leWord_encU32 {k : Nat} (h : k < 4294967296) : leWord (encU32 k) = k := by
  simp [leWord, encU32]
  omega

theorem leWord_encU16 {k : Nat} (h : k < 65536) : leWord (encU16 k) = k := by
  simp [leWord, encU16]
  omega

theorem produces_encU8 {b : Nat} (h : b < 256) :
    Produces (read_u8 readExact) (encU8 b) b := by
  have h1 : Produces (readExact 1) (encU8 b) (encU8 b) :=
    produces_readExact (by simp [encU8])
  have h2 : Produces (ppure (leWord (encU8 b))) [] b := by
    have hb : leWord (encU8 b) = b := by
      simp [leWord, encU8]
      omega
    rw [hb]
    exact produces_ppure b
  exact produces_pbind_eq h1 h2 (by simp)

theorem produces_encU16 {k : Nat} (h : k < 65536) :
    Produces (read_u16 readExact) (encU16 k) k := by
  have h1 : Produces (readExact 2) (encU16 k) (encU16 k) :=
    produces_readExact (by simp [encU16])
  have h2 : Produces (ppure (leWord (encU16 k))) [] k := by
    rw [leWord_encU16 h]
    exact produces_ppure k
  exact produces_pbind_eq h1 h2 (by simp)

theorem produces_encU32 {k : Nat} (h : k < 4294967296) :
    Produces (read_u32 readExact) (encU32 k) k := by
  have h1 : Produces (readExact 4) (encU32 k) (encU32 k) :=
    produces_readExact (by simp [encU32])
  have h2 : Produces (ppure (leWord (encU32 k))) [] k := by
    rw [leWord_encU32 h]
    exact produces_ppure k
  exact produces_pbind_eq h1 h2 (by simp)

theorem produces_encF32 {w : Nat} (h : w < 4294967296) :
    Produces (read_f32 readExact) (encF32 w) w :=
  produces_encU32 h

theorem produces_encI32 {v : Int} (h : i32Range v) :
    Produces (read_i32 readExact) (encI32 v) v := by
  obtain ⟨ha, hb⟩ := h
  have hw : (v % 4294967296).toNat < 4294967296 := by omega
  have h1 : Produces (readExact 4) (encI32 v) (encI32 v) :=
    produces_readExact (by simp [encI32, encU32])
  have h2 : Produces (ppure (toI32 (leWord (encI32 v)))) [] v := by
    rw [show encI32 v = encU32 (v % 4294967296).toNat from rfl, leWord_encU32 hw]
    have hv : toI32 (v % 4294967296).toNat = v := by
      unfold toI32
      split <;> omega
    rw [hv]
    exact produces_ppure v
  exact produces_pbind_eq h1 h2 (by simp)

theorem produces_encI8 {v : Int} (h : i8Range v) :
    Produces (read_i8 readExact) (encI8 v) v := by
  obtain ⟨ha, hb⟩ := h
  have h1 : Produces (readExact 1) (encI8 v) (encI8 v) :=
    produces_readExact (by simp [encI8])
  have h2 : Produces (ppure (toI8 (leWord (encI8 v)))) [] v := by
    have hl : leWord (encI8 v) = (v % 256).toNat := by
      simp [leWord, encI8]
    rw [hl]
    have hv : toI8 (v % 256).toNat = v := by
      unfold toI8
      split <;> omega
    rw [hv]
    exact produces_ppure v
  exact produces_pbind_eq h1 h2 (by simp)

theorem psound_read_u8 : PSound (read_u8 readExact) (· < 256) := by
  refine psound_pbind (psound_readExact 1) (fun l hl => psound_ppure ?_)
  have := leWord_lt hl.2
  rw [hl.1] at this
  simpa using this

theorem psound_read_u16 : PSound (read_u16 readExact) (· < 65536) := by
  refine psound_pbind (psound_readExact 2) (fun l hl => psound_ppure ?_)
  have := leWord_lt hl.2
  rw [hl.1] at this
  simpa using this

theorem psound_read_u32 : PSound (read_u32 readExact) (· < 4294967296) := by
  refine psound_pbind (psound_readExact 4) (fun l hl => psound_ppure ?_)
  have := leWord_lt hl.2
  rw [hl.1] at this
  simpa using this

theorem psound_read_f32 : PSound (read_f32 readExact) (· < 4294967296) :=
  psound_read_u32

theorem psound_read_i32 : PSound (read_i32 readExact) i32Range := by
  refine psound_pbind (psound_readExact 4) (fun l hl => psound_ppure ?_)
  have := leWord_lt hl.2
  rw [hl.1] at this
  norm_num at this
  unfold toI32 i32Range
  split <;> omega

theorem psound_read_i8 : PSound (read_i8 readExact) i8Range := by
  refine psound_pbind (psound_readExact 1) (fun l hl => psound_ppure ?_)
  have := leWord_lt hl.2
  rw [hl.1] at this
  norm_num at this
  unfold toI8 i8Range
  split <;> omega

/-! ## Conversion lemmas -/

theorem memchr_eq_takeWhile (bs : Bytes) :
    (match memchr 0 bs with
     | some i => bs.take i
     | none => bs) = bs.takeWhile (· ≠ 0) := by
  induction bs with
  | nil => rfl
  | cons b l ih =>
    by_cases hb : b = 0
    · subst hb
      simp [memchr, List.takeWhile_cons]
    · cases h : memchr 0 l with
      | none =>
        rw [h] at ih
        simpa [memchr, h, hb, List.takeWhile_cons] using ih
      | some i =>
        rw [h] at ih
        simpa [memchr, h, hb, List.takeWhile_cons, List.take_succ_cons] using ih

/-- Shared characterization of `convert_string`: the decoded value is the
prefix before the first NUL, validated as UTF-8. -/
theorem convert_string_eq (bs : Bytes) :
    convert_string bs =
      (if utf8Valid (bs.takeWhile (· ≠ 0)) then .ok (bs.takeWhile (· ≠ 0))
       else .error .invalidUtf8) := by
  unfold convert_string
  rw [memchr_eq_takeWhile]

theorem convert_string_sound {bs s : Bytes} (hv : byteValid bs)
    (h : convert_string bs = .ok s) : strValid bs.length s := by
  rw [convert_string_eq] at h
  by_cases hu : utf8Valid (bs.takeWhile (· ≠ 0))
  · rw [if_pos hu] at h
    simp only [Except.ok.injEq] at h
    subst h
    refine ⟨?_, ?_, ?_, hu⟩
    · simpa using (bs.takeWhile_sublist (· ≠ 0)).length_le
    · exact fun b hb => hv b ((bs.takeWhile_sublist (· ≠ 0)).subset hb)
    · intro b hb
      simpa using List.mem_takeWhile_imp hb
  · rw [if_neg hu] at h
    simp at h

theorem takeWhile_append_replicate {s : Bytes} (k : Nat) (h : ∀ b ∈ s, b ≠ 0) :
    (s ++ List.replicate k 0).takeWhile (· ≠ 0) = s := by
  induction s with
  | nil =>
    cases k with
    | zero => rfl
    | succ n => simp [List.replicate_succ, List.takeWhile_cons]
  | cons b l ih =>
    have hb : b ≠ 0 := h b (by simp)
    have ih2 := ih (fun x hx => h x (by simp [hx]))
    have hcond : (fun x => decide (x ≠ 0)) b = true := by simp [hb]
    simp only [List.cons_append, List.takeWhile_cons, hcond, if_true]
    rw [ih2]

/-- A decoded name or path, written back into its fixed slot, decodes to
itself. -/
theorem convert_string_encFixed {w : Nat} {s : Bytes} (h : strValid w s) :
    convert_string (encFixed w s) = .ok s := by
  obtain ⟨hlen, hv, hz, hu⟩ := h
  rw [convert_string_eq, encFixed, takeWhile_append_replicate _ hz, if_pos hu]

theorem convert_flags_ok {bits allowed f : Nat}
    (h : convert_flags bits allowed = .ok f) :
    f = bits ∧ allowed &&& bits = bits := by
  unfold convert_flags at h
  by_cases h1 : bits &&& (255 ^^^ ALL_FLAGS) = 0
  · rw [if_pos h1] at h
    by_cases h2 : allowed &&& bits = bits
    · rw [if_pos h2] at h
      simp only [Except.ok.injEq] at h
      exact ⟨h.symm, h2⟩
    · rw [if_neg h2] at h
      simp at h
  · rw [if_neg h1] at h
    simp at h

theorem convert_flags_le {bits allowed f : Nat}
    (h : convert_flags bits allowed = .ok f) : bits ≤ allowed := by
  obtain ⟨_, h2⟩ := convert_flags_ok h
  calc bits = allowed &&& bits := h2.symm
    _ ≤ allowed := Nat.and_le_left

theorem i32AsUsize_usizeI32 {v : Int} (h : i32Range v) :
    usizeI32 (i32AsUsize v) := by
  obtain ⟨h1, h2⟩ := h
  unfold i32AsUsize usizeI32
  omega

/-- The 32-bit write-back of a `usize` count field decodes to its value
reduced mod `2^32`, reinterpreted as a signed 32-bit integer. -/
theorem produces_encLen32 (n : Nat) :
    Produces (read_i32 readExact) (encLen32 n) (toI32 (n % 4294967296)) := by
  have h1 : Produces (readExact 4) (encLen32 n) (encLen32 n) :=
    produces_readExact (by simp [encLen32, encU32])
  have h2 : Produces (ppure (toI32 (leWord (encLen32 n)))) [] (toI32 (n % 4294967296)) := by
    rw [show encLen32 n = encU32 (n % 4294967296) from rfl,
      leWord_encU32 (by omega)]
    exact produces_ppure _
  exact produces_pbind_eq h1 h2 (by simp)

/-- Writing an `i32 as usize` length back as 32 bits and re-reading it with
the same cast is the identity on the lengths a decode can produce. -/
theorem i32AsUsize_toI32 {n : Nat} (h : usizeI32 n) :
    i32AsUsize (toI32 (n % 4294967296)) = n := by
  unfold usizeI32 at h
  unfold toI32 i32AsUsize
  split <;> omega

/-! ## List-of-field helpers -/

theorem produces_f32_vec {l : List Nat} {n : Nat} (h : word32Valid l n) :
    Produces (read_vec n (read_f32 readExact)) (encList encF32 l) l := by
  obtain ⟨hlen, hw⟩ := h
  subst hlen
  exact produces_read_vec (fun x hx => produces_encF32 (hw x hx))

theorem produces_u16_vec {l : List Nat} {n : Nat} (hlen : l.length = n)
    (h : ∀ i ∈ l, i < 65536) :
    Produces (read_vec n (read_u16 readExact)) (encList encU16 l) l := by
  subst hlen
  exact produces_read_vec (fun x hx => produces_encU16 (h x hx))

theorem produces_u8_vec {l : List Nat} {n : Nat} (hlen : l.length = n)
    (h : ∀ i ∈ l, i < 256) :
    Produces (read_vec n (read_u8 readExact)) (encList encU8 l) l := by
  subst hlen
  exact produces_read_vec (fun x hx => produces_encU8 (h x hx))

theorem produces_i8_vec {l : List Int} {n : Nat} (hlen : l.length = n)
    (h : ∀ i ∈ l, i8Range i) :
    Produces (read_vec n (read_i8 readExact)) (encList encI8 l) l := by
  subst hlen
  exact produces_read_vec (fun x hx => produces_encI8 (h x hx))

theorem produces_u32_vec {l : List Nat} {n : Nat} (hlen : l.length = n)
    (h : ∀ i ∈ l, i < 4294967296) :
    Produces (read_vec n (read_u32 readExact)) (encList encU32 l) l := by
  subst hlen
  exact produces_read_vec (fun x hx => produces_encU32 (h x hx))

theorem produces_f32_mat {l : List (List Nat)} {n : Nat} (hlen : l.length = n)
    (h : ∀ x ∈ l, word32Valid x 3) :
    Produces (read_vec n (read_vec 3 (read_f32 readExact))) (encList (encList encF32) l) l := by
  subst hlen
  exact produces_read_vec (fun x hx => produces_f32_vec (h x hx))

theorem produces_encFixed {w : Nat} {s : Bytes} (hlen : s.length ≤ w) :
    Produces (readExact w) (encFixed w s) (encFixed w s) :=
  produces_readExact (by simp [encFixed]; omega)

theorem psound_f32_vec (n : Nat) :
    PSound (read_vec n (read_f32 readExact)) (fun l => word32Valid l n) :=
  psound_read_vec psound_read_f32 n

theorem psound_f32_mat (n : Nat) :
    PSound (read_vec n (read_vec 3 (read_f32 readExact)))
      (fun l => l.length = n ∧ ∀ x ∈ l, word32Valid x 3) :=
  psound_read_vec (psound_f32_vec 3) n

/-! ## Record-level lemmas: Vertex and Triangle -/

theorem produces_read_vertex {v : Vertex} (h : WFVertex v) :
    Produces (read_vertex readExact) (encVertex v) v := by
  obtain ⟨hf, hvx, hb, hr⟩ := h
  have hall : Vertex.ALLOWED_FLAGS = 7 := by decide
  have hf256 : v.flags < 256 := by
    have := convert_flags_le hf
    omega
  unfold read_vertex
  refine produces_pbind_eq (produces_encU8 hf256)
    (produces_pbind_eq (produces_f32_vec hvx)
      (produces_pbind_eq (produces_encI8 hb)
        (produces_pbind_eq (produces_encU8 hr)
          (produces_pbind_eq (produces_plift hf)
            (produces_ppure _) rfl) rfl) rfl) rfl) ?_
  simp [encVertex, List.append_assoc]

theorem psound_read_vertex : PSound (read_vertex readExact) WFVertex := by
  unfold read_vertex
  refine psound_pbind psound_read_u8 (fun flags hfl => ?_)
  refine psound_pbind (psound_f32_vec 3) (fun vert hv => ?_)
  refine psound_pbind psound_read_i8 (fun bone hb => ?_)
  refine psound_pbind psound_read_u8 (fun rc hrc => ?_)
  refine psound_pbind (psound_plift (fun f hf => hf)) (fun f hf => psound_ppure ?_)
  obtain ⟨rfl, -⟩ := convert_flags_ok hf
  exact ⟨hf, hv, hb, hrc⟩

theorem produces_read_triangle {t : Triangle} (h : WFTriangle t) :
    Produces (read_triangle readExact) (encTriangle t) t := by
  obtain ⟨hf, ⟨hvl, hvi⟩, ⟨hnl, hn⟩, hs, ht, hsm, hgi⟩ := h
  have hall : Triangle.ALLOWED_FLAGS = 7 := by decide
  have hle := convert_flags_le hf
  have hf16 : t.flags < 65536 := by omega
  have hf2 : convert_flags (t.flags % 256) Triangle.ALLOWED_FLAGS = .ok t.flags := by
    rw [Nat.mod_eq_of_lt (by omega)]
    exact hf
  unfold read_triangle read_triangle_body
  refine produces_pbind_eq (produces_encU16 hf16)
    (produces_pbind_eq (produces_u16_vec hvl hvi)
      (produces_pbind_eq (produces_f32_mat hnl hn)
        (produces_pbind_eq (produces_f32_vec hs)
          (produces_pbind_eq (produces_f32_vec ht)
            (produces_pbind_eq (produces_encU8 hsm)
              (produces_pbind_eq (produces_encU8 hgi)
                (produces_pbind_eq (produces_plift hf2) (produces_ppure _) rfl)
                rfl)
              rfl)
            rfl)
          rfl)
        rfl)
      rfl)
    ?_
  simp [encTriangle, List.append_assoc]

theorem psound_read_triangle : PSound (read_triangle readExact) WFTriangle := by
  unfold read_triangle read_triangle_body
  refine psound_pbind psound_read_u16 (fun flags hfl => ?_)
  refine psound_pbind (psound_read_vec psound_read_u16 3) (fun vi hvi => ?_)
  refine psound_pbind (psound_f32_mat 3) (fun vn hvn => ?_)
  refine psound_pbind (psound_f32_vec 3) (fun s hs => ?_)
  refine psound_pbind (psound_f32_vec 3) (fun t hts => ?_)
  refine psound_pbind psound_read_u8 (fun sg hsg => ?_)
  refine psound_pbind psound_read_u8 (fun gi hgi => ?_)
  refine psound_pbind (psound_plift (fun f hf => hf)) (fun f hf => psound_ppure ?_)
  obtain ⟨rfl, -⟩ := convert_flags_ok hf
  exact ⟨hf, hvi, hvn, hs, hts, hsg, hgi⟩

/-! ## Record-level lemmas: Group, Material, KeyFrames, Joint -/

theorem produces_read_group {g : Group} (h : WFGroup g) :
    Produces (read_group readExact) (encGroup g) g := by
  obtain ⟨hf, hstr, hlen, hidx, hmat⟩ := h
  have hall : Group.ALLOWED_FLAGS = 3 := by decide
  have hf256 : g.flags < 256 := by
    have := convert_flags_le hf
    omega
  have hcs : convert_string (encFixed 32 g.name) = .ok g.name :=
    convert_string_encFixed hstr
  unfold read_group
  refine produces_pbind_eq (produces_encU8 hf256)
    (produces_pbind_eq (produces_encFixed hstr.1)
      (produces_pbind_eq (produces_encU16 hlen)
        (produces_pbind_eq (produces_plift hf)
          (produces_pbind_eq (produces_plift hcs)
            (produces_pbind_eq (produces_u16_vec rfl hidx)
              (produces_pbind_eq (produces_encI8 hmat) (produces_ppure _) rfl)
              rfl)
            rfl)
          rfl)
        rfl)
      rfl)
    ?_
  simp [encGroup, List.append_assoc]

theorem psound_read_group : PSound (read_group readExact) WFGroup := by
  unfold read_group
  refine psound_pbind psound_read_u8 (fun flags hfl => ?_)
  refine psound_pbind (psound_readExact 32) (fun raw hraw => ?_)
  refine psound_pbind psound_read_u16 (fun n hn => ?_)
  refine psound_pbind (psound_plift (fun f hf => hf)) (fun f hf => ?_)
  refine psound_pbind (psound_plift (fun s hs => hs)) (fun s hs => ?_)
  refine psound_pbind (psound_read_vec psound_read_u16 n) (fun idx hidx => ?_)
  refine psound_pbind psound_read_i8 (fun mi hmi => psound_ppure ?_)
  obtain ⟨rfl, -⟩ := convert_flags_ok hf
  have hstr : strValid 32 s := by
    have h1 := convert_string_sound hraw.2 hs
    rwa [hraw.1] at h1
  exact ⟨hf, hstr, by rw [hidx.1]; exact hn, hidx.2, hmi⟩

theorem produces_read_material {m : Material} (h : WFMaterial m) :
    Produces (read_material readExact) (encMaterial m) m := by
  obtain ⟨hname, ham, hdi, hsp, hem, hsh, htr, hmode, htex, halpha⟩ := h
  have hcn : convert_string (encFixed 32 m.name) = .ok m.name :=
    convert_string_encFixed hname
  have hct : convert_path (encFixed 128 m.texture) = .ok m.texture :=
    convert_string_encFixed htex
  have hca : convert_path (encFixed 128 m.alphamap) = .ok m.alphamap :=
    convert_string_encFixed halpha
  unfold read_material
  refine produces_pbind_eq (produces_encFixed hname.1)
    (produces_pbind_eq (produces_f32_vec ham)
      (produces_pbind_eq (produces_f32_vec hdi)
        (produces_pbind_eq (produces_f32_vec hsp)
          (produces_pbind_eq (produces_f32_vec hem)
            (produces_pbind_eq (produces_encF32 hsh)
              (produces_pbind_eq (produces_encF32 htr)
                (produces_pbind_eq (produces_encU8 hmode)
                  (produces_pbind_eq (produces_encFixed htex.1)
                    (produces_pbind_eq (produces_encFixed halpha.1)
                      (produces_pbind_eq (produces_plift hcn)
                        (produces_pbind_eq (produces_plift hct)
                          (produces_pbind_eq (produces_plift hca)
                            (produces_ppure _) rfl)
                          rfl)
                        rfl)
                      rfl)
                    rfl)
                  rfl)
                rfl)
              rfl)
            rfl)
          rfl)
        rfl)
      rfl)
    ?_
  simp [encMaterial, List.append_assoc]

theorem psound_read_material : PSound (read_material readExact) WFMaterial := by
  unfold read_material
  refine psound_pbind (psound_readExact 32) (fun rawn hrawn => ?_)
  refine psound_pbind (psound_f32_vec 4) (fun am ham => ?_)
  refine psound_pbind (psound_f32_vec 4) (fun di hdi => ?_)
  refine psound_pbind (psound_f32_vec 4) (fun sp hsp => ?_)
  refine psound_pbind (psound_f32_vec 4) (fun em hem => ?_)
  refine psound_pbind psound_read_f32 (fun sh hsh => ?_)
  refine psound_pbind psound_read_f32 (fun tr htr => ?_)
  refine psound_pbind psound_read_u8 (fun mo hmo => ?_)
  refine psound_pbind (psound_readExact 128) (fun rawt hrawt => ?_)
  refine psound_pbind (psound_readExact 128) (fun rawa hrawa => ?_)
  refine psound_pbind (psound_plift (fun s hs => hs)) (fun name hname => ?_)
  refine psound_pbind (psound_plift (fun s hs => hs)) (fun tex htex => ?_)
  refine psound_pbind (psound_plift (fun s hs => hs)) (fun alpha halpha => psound_ppure ?_)
  have h1 : strValid 32 name := by
    have := convert_string_sound hrawn.2 hname
    rwa [hrawn.1] at this
  have h2 : strValid 128 tex := by
    have := convert_string_sound hrawt.2 htex
    rwa [hrawt.1] at this
  have h3 : strValid 128 alpha := by
    have := convert_string_sound hrawa.2 halpha
    rwa [hrawa.1] at this
  exact ⟨h1, ham, hdi, hsp, hem, hsh, htr, hmo, h2, h3⟩

theorem produces_read_key_frame_data {k : KeyFrameData} (h : WFKeyFrameData k) :
    Produces (read_key_frame_data readExact) (encKeyFrameData k) k := by
  obtain ⟨h1, h2, h3⟩ := h
  unfold read_key_frame_data
  refine produces_pbind_eq (produces_encF32 h1)
    (produces_pbind_eq (produces_encF32 h2)
      (produces_pbind_eq (produces_encI32 h3) (produces_ppure _) rfl)
      rfl)
    ?_
  simp [encKeyFrameData, List.append_assoc]

theorem psound_read_key_frame_data :
    PSound (read_key_frame_data readExact) WFKeyFrameData := by
  unfold read_key_frame_data
  refine psound_pbind psound_read_f32 (fun a ha => ?_)
  refine psound_pbind psound_read_f32 (fun c hc => ?_)
  refine psound_pbind psound_read_i32 (fun f hf => psound_ppure ⟨ha, hc, hf⟩)

theorem produces_read_key_frame_rot {k : KeyFrameRot} (h : WFKeyFrameRot k) :
    Produces (read_key_frame_rot readExact) (encKeyFrameRot k) k := by
  obtain ⟨h1, h2⟩ := h
  unfold read_key_frame_rot
  refine produces_pbind_eq (produces_encF32 h1)
    (produces_pbind_eq (produces_f32_vec h2) (produces_ppure _) rfl)
    ?_
  simp [encKeyFrameRot, List.append_assoc]

theorem psound_read_key_frame_rot :
    PSound (read_key_frame_rot readExact) WFKeyFrameRot := by
  unfold read_key_frame_rot
  refine psound_pbind psound_read_f32 (fun a ha => ?_)
  refine psound_pbind (psound_f32_vec 3) (fun r hr => psound_ppure ⟨ha, hr⟩)

theorem produces_read_key_frame_pos {k : KeyFramePos} (h : WFKeyFramePos k) :
    Produces (read_key_frame_pos readExact) (encKeyFramePos k) k := by
  obtain ⟨h1, h2⟩ := h
  unfold read_key_frame_pos
  refine produces_pbind_eq (produces_encF32 h1)
    (produces_pbind_eq (produces_f32_vec h2) (produces_ppure _) rfl)
    ?_
  simp [encKeyFramePos, List.append_assoc]

theorem psound_read_key_frame_pos :
    PSound (read_key_frame_pos readExact) WFKeyFramePos := by
  unfold read_key_frame_pos
  refine psound_pbind psound_read_f32 (fun a ha => ?_)
  refine psound_pbind (psound_f32_vec 3) (fun r hr => psound_ppure ⟨ha, hr⟩)

theorem produces_read_joint {j : Joint} (h : WFJoint j) :
    Produces (read_joint readExact) (encJoint j) j := by
  obtain ⟨hf, hname, hpar, hrot, hpos, hkrl, hkr, hktl, hkt⟩ := h
  have hall : Joint.ALLOWED_FLAGS = 9 := by decide
  have hf256 : j.flags < 256 := by
    have := convert_flags_le hf
    omega
  have hcn : convert_string (encFixed 32 j.name) = .ok j.name :=
    convert_string_encFixed hname
  have hcp : convert_string (encFixed 32 j.parent_name) = .ok j.parent_name :=
    convert_string_encFixed hpar
  unfold read_joint
  refine produces_pbind_eq (produces_encU8 hf256)
    (produces_pbind_eq (produces_encFixed hname.1)
      (produces_pbind_eq (produces_encFixed hpar.1)
        (produces_pbind_eq (produces_f32_vec hrot)
          (produces_pbind_eq (produces_f32_vec hpos)
            (produces_pbind_eq (produces_encU16 hkrl)
              (produces_pbind_eq (produces_encU16 hktl)
                (produces_pbind_eq (produces_plift hf)
                  (produces_pbind_eq (produces_plift hcn)
                    (produces_pbind_eq (produces_plift hcp)
                      (produces_pbind_eq
                        (produces_read_vec
                          (fun x hx => produces_read_key_frame_rot (hkr x hx)))
                        (produces_pbind_eq
                          (produces_read_vec
                            (fun x hx => produces_read_key_frame_pos (hkt x hx)))
                          (produces_ppure _) rfl)
                        rfl)
                      rfl)
                    rfl)
                  rfl)
                rfl)
              rfl)
            rfl)
          rfl)
        rfl)
      rfl)
    ?_
  simp [encJoint, List.append_assoc]

theorem psound_read_joint : PSound (read_joint readExact) WFJoint := by
  unfold read_joint
  refine psound_pbind psound_read_u8 (fun flags hfl => ?_)
  refine psound_pbind (psound_readExact 32) (fun rawn hrawn => ?_)
  refine psound_pbind (psound_readExact 32) (fun rawp hrawp => ?_)
  refine psound_pbind (psound_f32_vec 3) (fun rot hrot => ?_)
  refine psound_pbind (psound_f32_vec 3) (fun pos hpos => ?_)
  refine psound_pbind psound_read_u16 (fun nr hnr => ?_)
  refine psound_pbind psound_read_u16 (fun nt hnt => ?_)
  refine psound_pbind (psound_plift (fun f hf => hf)) (fun f hf => ?_)
  refine psound_pbind (psound_plift (fun s hs => hs)) (fun name hname => ?_)
  refine psound_pbind (psound_plift (fun s hs => hs)) (fun par hpar => ?_)
  refine psound_pbind (psound_read_vec psound_read_key_frame_rot nr) (fun kr hkr => ?_)
  refine psound_pbind (psound_read_vec psound_read_key_frame_pos nt) (fun kt hkt =>
    psound_ppure ?_)
  obtain ⟨rfl, -⟩ := convert_flags_ok hf
  have h1 : strValid 32 name := by
    have := convert_string_sound hrawn.2 hname
    rwa [hrawn.1] at this
  have h2 : strValid 32 par := by
    have := convert_string_sound hrawp.2 hpar
    rwa [hrawp.1] at this
  exact ⟨hf, h1, h2, hrot, hpos, by rw [hkr.1]; exact hnr, hkr.2,
    by rw [hkt.1]; exact hnt, hkt.2⟩

/-! ## Record-level lemmas: Comments -/

theorem produces_read_string {s : Bytes} (hu : utf8Valid s = true) :
    Produces (read_string readExact s.length) s s := by
  unfold read_string
  refine produces_pbind_last (@produces_readExact s s.length rfl) ?_
  rw [if_pos hu]
  exact produces_ppure s

theorem psound_read_string (len : Nat) :
    PSound (read_string readExact len)
      (fun s => s.length = len ∧ byteValid s ∧ utf8Valid s = true) := by
  unfold read_string
  refine psound_pbind (psound_readExact len) (fun l hl => ?_)
  by_cases hu : utf8Valid l = true
  · rw [if_pos hu]
    exact psound_ppure ⟨hl.1, hl.2, hu⟩
  · rw [if_neg hu]
    exact psound_pfail

theorem produces_read_comment {c : Comment} (h : WFComment c) :
    Produces (read_comment readExact) (encComment c) c := by
  obtain ⟨hidx, hlen, hbv, hutf⟩ := h
  unfold read_comment
  show Produces _ (encComment c) c
  simp only [encComment, List.append_assoc]
  refine produces_pbind (produces_encI32 hidx) ?_
  refine produces_pbind (produces_encLen32 c.comment.length) ?_
  rw [i32AsUsize_toI32 hlen]
  exact produces_pbind_last (produces_read_string hutf) (produces_ppure _)

theorem psound_read_comment : PSound (read_comment readExact) WFComment := by
  unfold read_comment
  refine psound_pbind psound_read_i32 (fun idx hidx => ?_)
  refine psound_pbind psound_read_i32 (fun cl hcl => ?_)
  refine psound_pbind (psound_read_string _) (fun s hs => psound_ppure ?_)
  refine ⟨hidx, ?_, hs.2.1, hs.2.2⟩
  rw [hs.1]
  exact i32AsUsize_usizeI32 hcl

theorem produces_read_comments {c : Comments} (h : WFComments c) :
    Produces (read_comments readExact) (encComments c) c := by
  obtain ⟨sv, gc, mc, jc, mcm⟩ := c
  obtain ⟨hsv, hgl, hgc, hml, hmc, hjl, hjc, hmcm⟩ := h
  have hsv2 : sv = 1 := hsv
  subst hsv2
  unfold read_comments
  cases mcm with
  | none =>
    have hgl2 : gc.length < 4294967296 := hgl
    have hgc2 : ∀ x ∈ gc, WFComment x := hgc
    have hml2 : usizeI32 mc.length := hml
    have hmc2 : ∀ x ∈ mc, WFComment x := hmc
    have hjl2 : usizeI32 jc.length := hjl
    have hjc2 : ∀ x ∈ jc, WFComment x := hjc
    show Produces _ (encComments ⟨1, gc, mc, jc, none⟩) _
    simp only [encComments, List.append_assoc]
    refine produces_pbind (@produces_encI32 1 (by norm_num [i32Range])) ?_
    rw [if_pos rfl]
    refine produces_pbind (produces_encU32 hgl2) ?_
    refine produces_pbind
      (produces_read_vec (fun x hx => produces_read_comment (hgc2 x hx))) ?_
    refine produces_pbind (produces_encLen32 mc.length) ?_
    rw [i32AsUsize_toI32 hml2]
    refine produces_pbind
      (produces_read_vec (fun x hx => produces_read_comment (hmc2 x hx))) ?_
    refine produces_pbind (produces_encLen32 jc.length) ?_
    rw [i32AsUsize_toI32 hjl2]
    refine produces_pbind
      (produces_read_vec (fun x hx => produces_read_comment (hjc2 x hx))) ?_
    refine produces_pbind_last (produces_encLen32 0) ?_
    have h0 : i32AsUsize (toI32 (0 % 4294967296)) = 0 := by decide
    rw [h0, if_pos rfl]
    exact produces_pbind_last (produces_ppure none) (produces_ppure _)
  | some cm =>
    have hgl2 : gc.length < 4294967296 := hgl
    have hgc2 : ∀ x ∈ gc, WFComment x := hgc
    have hml2 : usizeI32 mc.length := hml
    have hmc2 : ∀ x ∈ mc, WFComment x := hmc
    have hjl2 : usizeI32 jc.length := hjl
    have hjc2 : ∀ x ∈ jc, WFComment x := hjc
    have hcm : WFComment cm := hmcm cm (by simp)
    show Produces _ (encComments ⟨1, gc, mc, jc, some cm⟩) _
    simp only [encComments, List.append_assoc]
    refine produces_pbind (@produces_encI32 1 (by norm_num [i32Range])) ?_
    rw [if_pos rfl]
    refine produces_pbind (produces_encU32 hgl2) ?_
    refine produces_pbind
      (produces_read_vec (fun x hx => produces_read_comment (hgc2 x hx))) ?_
    refine produces_pbind (produces_encLen32 mc.length) ?_
    rw [i32AsUsize_toI32 hml2]
    refine produces_pbind
      (produces_read_vec (fun x hx => produces_read_comment (hmc2 x hx))) ?_
    refine produces_pbind (produces_encLen32 jc.length) ?_
    rw [i32AsUsize_toI32 hjl2]
    refine produces_pbind
      (produces_read_vec (fun x hx => produces_read_comment (hjc2 x hx))) ?_
    refine produces_pbind (produces_encLen32 1) ?_
    have h1 : i32AsUsize (toI32 (1 % 4294967296)) = 1 := by decide
    rw [h1, if_neg (by norm_num), if_pos rfl]
    exact produces_pbind_last
      (produces_pbind_last (produces_read_comment hcm) (produces_ppure _))
      (produces_ppure _)

theorem psound_read_comments : PSound (read_comments readExact) WFComments := by
  unfold read_comments
  refine psound_pbind psound_read_i32 (fun sv hsv => ?_)
  by_cases h1 : sv = 1
  · rw [if_pos h1]
    subst h1
    refine psound_pbind psound_read_u32 (fun len0 hlen0 => ?_)
    refine psound_pbind (psound_read_vec psound_read_comment len0) (fun gcs hgcs => ?_)
    refine psound_pbind psound_read_i32 (fun len1 hlen1 => ?_)
    refine psound_pbind (psound_read_vec psound_read_comment _) (fun mcs hmcs => ?_)
    refine psound_pbind psound_read_i32 (fun len2 hlen2 => ?_)
    refine psound_pbind (psound_read_vec psound_read_comment _) (fun jcs hjcs => ?_)
    refine psound_pbind psound_read_i32 (fun len3 hlen3 => ?_)
    have hmc : PSound
        (if i32AsUsize len3 = 0 then ppure none
         else if i32AsUsize len3 = 1 then
           pbind (read_comment readExact) fun c => ppure (some c)
         else pfail .invalidNumModelComments)
        (fun mcm => ∀ x ∈ mcm.toList, WFComment x) := by
      by_cases h0 : i32AsUsize len3 = 0
      · rw [if_pos h0]
        exact psound_ppure (by simp)
      · rw [if_neg h0]
        by_cases hone : i32AsUsize len3 = 1
        · rw [if_pos hone]
          refine psound_pbind psound_read_comment (fun cm hcm => psound_ppure ?_)
          simpa using hcm
        · rw [if_neg hone]
          exact psound_pfail
    refine psound_pbind hmc (fun mcm hmcm => psound_ppure ?_)
    refine ⟨rfl, ?_, hgcs.2, ?_, hmcs.2, ?_, hjcs.2, hmcm⟩
    · rw [hgcs.1]
      exact hlen0
    · rw [hmcs.1]
      exact i32AsUsize_usizeI32 hlen1
    · rw [hjcs.1]
      exact i32AsUsize_usizeI32 hlen2
  · rw [if_neg h1]
    exact psound_pfail

/-! ## Record-level lemmas: extension sections -/

theorem produces_read_vertex_ex_1 {v : VertexEx1} (h : WFVertexEx1 v) :
    Produces (read_vertex_ex_1 readExact) (encVertexEx1 v) v := by
  obtain ⟨⟨hbl, hb⟩, ⟨hwl, hw⟩⟩ := h
  unfold read_vertex_ex_1
  refine produces_pbind_eq (produces_i8_vec hbl hb)
    (produces_pbind_eq (produces_u8_vec hwl hw) (produces_ppure _) rfl) ?_
  simp [encVertexEx1, List.append_assoc]

theorem produces_read_vertex_ex_2 {v : VertexEx2} (h : WFVertexEx2 v) :
    Produces (read_vertex_ex_2 readExact) (encVertexEx2 v) v := by
  obtain ⟨⟨hbl, hb⟩, ⟨hwl, hw⟩, hex⟩ := h
  unfold read_vertex_ex_2
  refine produces_pbind_eq (produces_i8_vec hbl hb)
    (produces_pbind_eq (produces_u8_vec hwl hw)
      (produces_pbind_eq (produces_encU32 hex) (produces_ppure _) rfl)
      rfl)
    ?_
  simp [encVertexEx2, List.append_assoc]

theorem produces_read_vertex_ex_3 {v : VertexEx3} (h : WFVertexEx3 v) :
    Produces (read_vertex_ex_3 readExact) (encVertexEx3 v) v := by
  obtain ⟨⟨hbl, hb⟩, ⟨hwl, hw⟩, ⟨hel, he⟩⟩ := h
  unfold read_vertex_ex_3
  refine produces_pbind_eq (produces_i8_vec hbl hb)
    (produces_pbind_eq (produces_u8_vec hwl hw)
      (produces_pbind_eq (produces_u32_vec hel he) (produces_ppure _) rfl)
      rfl)
    ?_
  simp [encVertexEx3, List.append_assoc]

theorem psound_read_vertex_ex_1 : PSound (read_vertex_ex_1 readExact) WFVertexEx1 := by
  unfold read_vertex_ex_1
  refine psound_pbind (psound_read_vec psound_read_i8 3) (fun b hb => ?_)
  refine psound_pbind (psound_read_vec psound_read_u8 3) (fun w hw =>
    psound_ppure ⟨hb, hw⟩)

theorem psound_read_vertex_ex_2 : PSound (read_vertex_ex_2 readExact) WFVertexEx2 := by
  unfold read_vertex_ex_2
  refine psound_pbind (psound_read_vec psound_read_i8 3) (fun b hb => ?_)
  refine psound_pbind (psound_read_vec psound_read_u8 3) (fun w hw => ?_)
  refine psound_pbind psound_read_u32 (fun e he => psound_ppure ⟨hb, hw, he⟩)

theorem psound_read_vertex_ex_3 : PSound (read_vertex_ex_3 readExact) WFVertexEx3 := by
  unfold read_vertex_ex_3
  refine psound_pbind (psound_read_vec psound_read_i8 3) (fun b hb => ?_)
  refine psound_pbind (psound_read_vec psound_read_u8 3) (fun w hw => ?_)
  refine psound_pbind (psound_read_vec psound_read_u32 2) (fun e he =>
    psound_ppure ⟨hb, hw, he⟩)

theorem produces_read_vertex_ex_info {info : VertexExInfo} {n : Nat}
    (h : WFVertexExInfo n info) :
    Produces (read_vertex_ex_info readExact n) (encVertexExInfo info) info := by
  cases info with
  | SubVersion1 l =>
    obtain ⟨hlen, hx⟩ := h
    subst hlen
    unfold read_vertex_ex_info
    show Produces _ (encVertexExInfo (.SubVersion1 l)) _
    simp only [encVertexExInfo, List.append_assoc]
    refine produces_pbind (@produces_encI32 1 (by norm_num [i32Range])) ?_
    rw [if_pos rfl]
    exact produces_pbind_last
      (produces_read_vec (fun x hx2 => produces_read_vertex_ex_1 (hx x hx2)))
      (produces_ppure _)
  | SubVersion2 l =>
    obtain ⟨hlen, hx⟩ := h
    subst hlen
    unfold read_vertex_ex_info
    show Produces _ (encVertexExInfo (.SubVersion2 l)) _
    simp only [encVertexExInfo, List.append_assoc]
    refine produces_pbind (@produces_encI32 2 (by norm_num [i32Range])) ?_
    rw [if_neg (by norm_num), if_pos rfl]
    exact produces_pbind_last
      (produces_read_vec (fun x hx2 => produces_read_vertex_ex_2 (hx x hx2)))
      (produces_ppure _)
  | SubVersion3 l =>
    obtain ⟨hlen, hx⟩ := h
    subst hlen
    unfold read_vertex_ex_info
    show Produces _ (encVertexExInfo (.SubVersion3 l)) _
    simp only [encVertexExInfo, List.append_assoc]
    refine produces_pbind (@produces_encI32 3 (by norm_num [i32Range])) ?_
    rw [if_neg (by norm_num), if_neg (by norm_num), if_pos rfl]
    exact produces_pbind_last
      (produces_read_vec (fun x hx2 => produces_read_vertex_ex_3 (hx x hx2)))
      (produces_ppure _)

theorem psound_read_vertex_ex_info (n : Nat) :
    PSound (read_vertex_ex_info readExact n) (WFVertexExInfo n) := by
  unfold read_vertex_ex_info
  refine psound_pbind psound_read_i32 (fun sv hsv => ?_)
  by_cases h1 : sv = 1
  · rw [if_pos h1]
    exact psound_pbind (psound_read_vec psound_read_vertex_ex_1 n)
      (fun l hl => psound_ppure hl)
  · rw [if_neg h1]
    by_cases h2 : sv = 2
    · rw [if_pos h2]
      exact psound_pbind (psound_read_vec psound_read_vertex_ex_2 n)
        (fun l hl => psound_ppure hl)
    · rw [if_neg h2]
      by_cases h3 : sv = 3
      · rw [if_pos h3]
        exact psound_pbind (psound_read_vec psound_read_vertex_ex_3 n)
          (fun l hl => psound_ppure hl)
      · rw [if_neg h3]
        exact psound_pfail

theorem produces_read_joint_ex {j : JointEx} (h : word32Valid j.color 3) :
    Produces (read_joint_ex readExact) (encJointEx j) j := by
  unfold read_joint_ex
  refine produces_pbind_eq (produces_f32_vec h) (produces_ppure _) ?_
  simp [encJointEx]

theorem psound_read_joint_ex :
    PSound (read_joint_ex readExact) (fun j => word32Valid j.color 3) := by
  unfold read_joint_ex
  exact psound_pbind (psound_f32_vec 3) (fun c hc => psound_ppure hc)

theorem produces_read_joint_ex_info {info : JointExInfo} {n : Nat}
    (h : WFJointExInfo n info) :
    Produces (read_joint_ex_info readExact n) (encJointExInfo info) info := by
  obtain ⟨sv, jx⟩ := info
  obtain ⟨hsv, hlen, hx⟩ := h
  have hsv2 : sv = 1 := hsv
  subst hsv2
  have hlen2 : jx.length = n := hlen
  subst hlen2
  have hx2 : ∀ x ∈ jx, word32Valid x.color 3 := hx
  unfold read_joint_ex_info
  show Produces _ (encJointExInfo ⟨1, jx⟩) _
  simp only [encJointExInfo, List.append_assoc]
  refine produces_pbind (@produces_encI32 1 (by norm_num [i32Range])) ?_
  rw [if_pos rfl]
  exact produces_pbind_last
    (produces_read_vec (fun x hx3 => produces_read_joint_ex (hx2 x hx3)))
    (produces_ppure _)

theorem psound_read_joint_ex_info (n : Nat) :
    PSound (read_joint_ex_info readExact n) (WFJointExInfo n) := by
  unfold read_joint_ex_info
  refine psound_pbind psound_read_i32 (fun sv hsv => ?_)
  by_cases h1 : sv = 1
  · rw [if_pos h1]
    subst h1
    exact psound_pbind (psound_read_vec psound_read_joint_ex n)
      (fun l hl => psound_ppure ⟨rfl, hl.1, hl.2⟩)
  · rw [if_neg h1]
    exact psound_pfail

theorem produces_read_model_ex {m : ModelEx}
    (h : m.joint_size < 4294967296 ∧ i32Range m.transparency_mode ∧
      m.alpha_ref < 4294967296) :
    Produces (read_model_ex readExact) (encModelEx m) m := by
  obtain ⟨h1, h2, h3⟩ := h
  unfold read_model_ex
  refine produces_pbind_eq (produces_encF32 h1)
    (produces_pbind_eq (produces_encI32 h2)
      (produces_pbind_eq (produces_encF32 h3) (produces_ppure _) rfl)
      rfl)
    ?_
  simp [encModelEx, List.append_assoc]

theorem psound_read_model_ex :
    PSound (read_model_ex readExact)
      (fun m => m.joint_size < 4294967296 ∧ i32Range m.transparency_mode ∧
        m.alpha_ref < 4294967296) := by
  unfold read_model_ex
  refine psound_pbind psound_read_f32 (fun js hjs => ?_)
  refine psound_pbind psound_read_i32 (fun tm htm => ?_)
  refine psound_pbind psound_read_f32 (fun ar har => psound_ppure ⟨hjs, htm, har⟩)

theorem produces_read_model_ex_info {info : ModelExInfo} (h : WFModelExInfo info) :
    Produces (read_model_ex_info readExact) (encModelExInfo info) info := by
  obtain ⟨sv, mex⟩ := info
  obtain ⟨hsv, h1, h2, h3⟩ := h
  have hsv2 : sv = 1 := hsv
  subst hsv2
  have hm : mex.joint_size < 4294967296 ∧ i32Range mex.transparency_mode ∧
      mex.alpha_ref < 4294967296 := ⟨h1, h2, h3⟩
  unfold read_model_ex_info
  show Produces _ (encModelExInfo ⟨1, mex⟩) _
  simp only [encModelExInfo, List.append_assoc]
  refine produces_pbind (@produces_encI32 1 (by norm_num [i32Range])) ?_
  rw [if_pos rfl]
  exact produces_pbind_last (produces_read_model_ex hm) (produces_ppure _)

theorem psound_read_model_ex_info :
    PSound (read_model_ex_info readExact) WFModelExInfo := by
  unfold read_model_ex_info
  refine psound_pbind psound_read_i32 (fun sv hsv => ?_)
  by_cases h1 : sv = 1
  · rw [if_pos h1]
    subst h1
    exact psound_pbind psound_read_model_ex
      (fun mex hmex => psound_ppure ⟨rfl, hmex.1, hmex.2.1, hmex.2.2⟩)
  · rw [if_neg h1]
    exact psound_pfail

/-! ## Header and whole-model lemmas -/

theorem pbind_assoc {α β γ : Type} (p : P α) (f : α → P β) (g : β → P γ) :
    pbind (pbind p f) g = pbind p (fun a => pbind (f a) g) := by
  funext bs
  unfold pbind
  cases h : p bs with
  | ok ab =>
    obtain ⟨a, bs1⟩ := ab
    rfl
  | error e => rfl

theorem produces_read_header {h : Header} (hv : h.version = 4) :
    Produces (read_header readExact) (encHeader h) h := by
  obtain ⟨v⟩ := h
  have hv2 : v = 4 := hv
  subst hv2
  unfold read_header
  refine produces_pbind_last
    (@produces_readExact (encHeader ⟨4⟩) 14 (by simp [encHeader, encI32, encU32])) ?_
  intro rest
  rfl

theorem psound_read_header :
    PSound (read_header readExact) (fun h => h.version = 4) := by
  unfold read_header
  refine psound_pbind (psound_readExact 14) (fun raw hraw => ?_)
  by_cases h1 : raw.take 10 = [77, 83, 51, 68, 48, 48, 48, 48, 48, 48]
  · rw [if_pos h1]
    by_cases h2 : toI32 (leWord (raw.drop 10)) = 4
    · rw [if_pos h2]
      exact psound_ppure h2
    · rw [if_neg h2]
      exact psound_pfail
  · rw [if_neg h1]
    exact psound_pfail

theorem psound_read_vertices :
    PSound (read_vertices readExact)
      (fun l => l.length < 65536 ∧ ∀ v ∈ l, WFVertex v) := by
  unfold read_vertices
  refine psound_pbind psound_read_u16 (fun n hn => ?_)
  exact psound_weaken (psound_read_vec psound_read_vertex n)
    (fun l hl => ⟨by rw [hl.1]; exact hn, hl.2⟩)

theorem psound_read_triangles :
    PSound (read_triangles readExact)
      (fun l => l.length < 65536 ∧ ∀ t ∈ l, WFTriangle t) := by
  unfold read_triangles
  refine psound_pbind psound_read_u16 (fun n hn => ?_)
  exact psound_weaken (psound_read_vec psound_read_triangle n)
    (fun l hl => ⟨by rw [hl.1]; exact hn, hl.2⟩)

theorem psound_read_groups :
    PSound (read_groups readExact)
      (fun l => l.length < 65536 ∧ ∀ g ∈ l, WFGroup g) := by
  unfold read_groups
  refine psound_pbind psound_read_u16 (fun n hn => ?_)
  exact psound_weaken (psound_read_vec psound_read_group n)
    (fun l hl => ⟨by rw [hl.1]; exact hn, hl.2⟩)

theorem psound_read_materials :
    PSound (read_materials readExact)
      (fun l => l.length < 65536 ∧ ∀ x ∈ l, WFMaterial x) := by
  unfold read_materials
  refine psound_pbind psound_read_u16 (fun n hn => ?_)
  exact psound_weaken (psound_read_vec psound_read_material n)
    (fun l hl => ⟨by rw [hl.1]; exact hn, hl.2⟩)

theorem psound_read_joints :
    PSound (read_joints readExact)
      (fun l => l.length < 65536 ∧ ∀ j ∈ l, WFJoint j) := by
  unfold read_joints
  refine psound_pbind psound_read_u16 (fun n hn => ?_)
  exact psound_weaken (psound_read_vec psound_read_joint n)
    (fun l hl => ⟨by rw [hl.1]; exact hn, hl.2⟩)

/-- Every successfully decoded model satisfies all the structural
invariants of `WFModel`. -/
theorem psound_read_model : PSound (read_model readExact) WFModel := by
  unfold read_model
  refine psound_pbind psound_read_header (fun header hh => ?_)
  refine psound_pbind psound_read_vertices (fun vertices hv => ?_)
  refine psound_pbind psound_read_triangles (fun triangles ht => ?_)
  refine psound_pbind psound_read_groups (fun groups hg => ?_)
  refine psound_pbind psound_read_materials (fun materials hma => ?_)
  refine psound_pbind psound_read_key_frame_data (fun kfd hk => ?_)
  refine psound_pbind psound_read_joints (fun joints hj => ?_)
  refine psound_pbind psound_read_comments (fun comments hc => ?_)
  refine psound_pbind (psound_read_vertex_ex_info vertices.length) (fun vx hvx => ?_)
  refine psound_pbind (psound_read_joint_ex_info joints.length) (fun jx hjx => ?_)
  refine psound_pbind psound_read_model_ex_info (fun mx hmx => psound_ppure ?_)
  exact ⟨hh, hv.1, hv.2, ht.1, ht.2, hg.1, hg.2, hma.1, hma.2, hk,
    hj.1, hj.2, hc, hvx, hjx, hmx⟩

/-- Re-encoding a well-formed model and decoding it consumes the whole
encoding and returns the model unchanged. -/
theorem produces_read_model {m : Model} (h : WFModel m) :
    Produces (read_model readExact) (encode_model m) m := by
  obtain ⟨hver, hvl, hv, htl, ht, hgl, hg, hmal, hma, hkfd, hjl, hj, hcm, hvx, hjx, hmx⟩ := h
  unfold read_model read_vertices read_triangles read_groups read_materials read_joints
  simp only [pbind_assoc]
  show Produces _ (encode_model m) m
  simp only [encode_model, List.append_assoc]
  refine produces_pbind (produces_read_header hver) ?_
  refine produces_pbind (produces_encU16 hvl) ?_
  refine produces_pbind
    (produces_read_vec (fun x hx => produces_read_vertex (hv x hx))) ?_
  refine produces_pbind (produces_encU16 htl) ?_
  refine produces_pbind
    (produces_read_vec (fun x hx => produces_read_triangle (ht x hx))) ?_
  refine produces_pbind (produces_encU16 hgl) ?_
  refine produces_pbind
    (produces_read_vec (fun x hx => produces_read_group (hg x hx))) ?_
  refine produces_pbind (produces_encU16 hmal) ?_
  refine produces_pbind
    (produces_read_vec (fun x hx => produces_read_material (hma x hx))) ?_
  refine produces_pbind (produces_read_key_frame_data hkfd) ?_
  refine produces_pbind (produces_encU16 hjl) ?_
  refine produces_pbind
    (produces_read_vec (fun x hx => produces_read_joint (hj x hx))) ?_
  refine produces_pbind (produces_read_comments hcm) ?_
  refine produces_pbind (produces_read_vertex_ex_info hvx) ?_
  refine produces_pbind (produces_read_joint_ex_info hjx) ?_
  exact produces_pbind_last (produces_read_model_ex_info hmx) (produces_ppure _)

/-- Round trip: any model coming out of a successful decode of actual bytes
re-decodes from its own re-encoding, to itself, with no bytes left over. -/
theorem read_model_roundtrip {bs : Bytes} {m : Model} {rest : Bytes}
    (hv : byteValid bs) (h : read_model readExact bs = .ok (m, rest)) :
    read_model readExact (encode_model m) = .ok (m, []) := by
  have hwf : WFModel m := (psound_read_model bs m rest hv h).1
  have h2 := produces_read_model hwf []
  simpa using h2

/-! ## Evaluation lemmas and concrete inputs for the individual claims -/

theorem pbind_eval {α β : Type} (p : P α) (f : α → P β) (bs : Bytes) :
    pbind p f bs =
      match p bs with
      | .ok (a, bs1) => f a bs1
      | .error e => .error e := rfl

theorem pbind_fail {α β : Type} {p : P α} {f : α → P β} {bs : Bytes} {e : Err}
    (h : p bs = .error e) : pbind p f bs = .error e := by
  unfold pbind
  rw [h]

theorem pbind_run {α β : Type} {p : P α} {f : α → P β} {bs bs1 : Bytes} {a : α}
    (h : p bs = .ok (a, bs1)) : pbind p f bs = f a bs1 := by
  unfold pbind
  rw [h]

/-- The two byte-source backends are indistinguishable through the reader
interface: a failed read aborts the decode, so the differing post-error
states (`SliceReader` keeps its slice, `IoReader` has drained its source)
are never observed. -/
theorem liftSrc_io_eq_slice : liftSrc ioReaderRead = liftSrc sliceReaderRead := by
  funext n bs
  unfold liftSrc ioReaderRead sliceReaderRead
  by_cases h : n > bs.length
  · rw [if_pos h, if_pos h]
  · rw [if_neg h, if_neg h]

/-- A minimal well-formed file truncated exactly at the boundary before the
VertexExInfo sub-version tag: header, six empty/zero core sections, and a
complete Comments block. -/
def file_core : Bytes :=
  [77, 83, 51, 68, 48, 48, 48, 48, 48, 48] ++ encI32 4 ++
    encU16 0 ++ encU16 0 ++ encU16 0 ++ encU16 0 ++
    List.replicate 12 0 ++ encU16 0 ++
    (encI32 1 ++ encU32 0 ++ encI32 0 ++ encI32 0 ++ encI32 0)

/-- The same file with the three ex-info sections present. -/
def file_full : Bytes :=
  file_core ++ encI32 1 ++ encI32 1 ++ (encI32 1 ++ List.replicate 12 0)

/-- The model `file_full` decodes to. -/
def model0 : Model :=
  ⟨⟨4⟩, [], [], [], [], ⟨0, 0, 0⟩, [], ⟨1, [], [], [], none⟩,
   .SubVersion1 [], ⟨1, []⟩, ⟨1, ⟨0, 0, 0⟩⟩⟩

/-- `file_core` with its model-comment count changed from 0 to 2. -/
def file_mc2 : Bytes :=
  [77, 83, 51, 68, 48, 48, 48, 48, 48, 48] ++ encI32 4 ++
    encU16 0 ++ encU16 0 ++ encU16 0 ++ encU16 0 ++
    List.replicate 12 0 ++ encU16 0 ++
    (encI32 1 ++ encU32 0 ++ encI32 0 ++ encI32 0 ++ encI32 2)

/-! ## The claims -/

/-- C1, counterexample: the claim as stated is false on the code. A
well-formed 80-byte file decodes successfully, but truncating it exactly at
the boundary before the VertexExInfo sub-version tag (its 56-byte prefix)
makes the whole decode fail with an end-of-input error instead of
succeeding with empty/default ex-info sections. -/
theorem C1_counterexample :
    file_core = file_full.take 56 ∧
    from_bytes file_full = .ok (model0, []) ∧
    from_bytes file_core = .error .eof :=
  ⟨by decide, by decide, by decide⟩

/-- C1, amended: exhaustion of the byte source at the boundary before the
VertexExInfo (or JointExInfo, or ModelExInfo) sub-version tag is a fatal
end-of-input error — the ex-info sections are mandatory, and a truncated
well-formed file fails to decode rather than yielding default values. -/
theorem C1_theorem :
    (∀ len : Nat, read_vertex_ex_info readExact len [] = .error .eof) ∧
    (∀ len : Nat, read_joint_ex_info readExact len [] = .error .eof) ∧
    read_model_ex_info readExact [] = .error .eof ∧
    from_bytes file_core = .error .eof :=
  ⟨fun _ => rfl, fun _ => rfl, rfl, by decide⟩

/-- C2: for every Model produced by a successful decode of a byte-valid
input, re-encoding it with the documented packed little-endian layout and
decoding those bytes again yields the same Model (and consumes the whole
encoding). -/
theorem C2_theorem (bs : Bytes) (m : Model) (rest : Bytes)
    (h1 : byteValid bs) (h2 : from_bytes bs = .ok (m, rest)) :
    from_bytes (encode_model m) = .ok (m, []) :=
  read_model_roundtrip h1 h2

/-- C2, witness: a concrete successful decode whose output round-trips. -/
theorem C2_witness :
    byteValid file_full ∧ from_bytes file_full = .ok (model0, []) ∧
    from_bytes (encode_model model0) = .ok (model0, []) :=
  ⟨by decide, by decide,
    C2_theorem file_full model0 [] (by decide) (by decide)⟩

/-- C3: a header whose 10 magic bytes differ from "MS3D000000" makes the
decode fail with the invalid-header format violation, whatever the
remaining bytes hold (so before any other section is read); a correct magic
with a version other than 4 fails with the unsupported-version error; and
every successful decode started with the exact magic and version 4. -/
theorem C3_theorem :
    (∀ bs : Bytes, 14 ≤ bs.length →
      bs.take 10 ≠ [77, 83, 51, 68, 48, 48, 48, 48, 48, 48] →
      from_bytes bs = .error .invalidHeader) ∧
    (∀ bs : Bytes, 14 ≤ bs.length →
      bs.take 10 = [77, 83, 51, 68, 48, 48, 48, 48, 48, 48] →
      toI32 (leWord ((bs.drop 10).take 4)) ≠ 4 →
      from_bytes bs =
        .error (.unsupportedVersion (toI32 (leWord ((bs.drop 10).take 4))))) ∧
    (∀ (bs : Bytes) (m : Model) (rest : Bytes), from_bytes bs = .ok (m, rest) →
      bs.take 10 = [77, 83, 51, 68, 48, 48, 48, 48, 48, 48] ∧
        m.header.version = 4) := by
  refine ⟨?_, ?_, ?_⟩
  · intro bs hlen hmag
    show read_model readExact bs = .error .invalidHeader
    have hrd : readExact 14 bs = .ok (bs.take 14, bs.drop 14) := by
      unfold readExact liftSrc sliceReaderRead
      rw [if_neg (by omega)]
    have ht : (bs.take 14).take 10 = bs.take 10 := by
      rw [List.take_take]
      norm_num
    have hh : read_header readExact bs = .error .invalidHeader := by
      unfold read_header
      rw [pbind_run hrd, ht, if_neg hmag]
      rfl
    unfold read_model
    rw [pbind_fail hh]
  · intro bs hlen hmag hver
    show read_model readExact bs = _
    have hrd : readExact 14 bs = .ok (bs.take 14, bs.drop 14) := by
      unfold readExact liftSrc sliceReaderRead
      rw [if_neg (by omega)]
    have ht : (bs.take 14).take 10 = bs.take 10 := by
      rw [List.take_take]
      norm_num
    have hd : (bs.take 14).drop 10 = (bs.drop 10).take 4 := by
      rw [List.drop_take]
    have hh : read_header readExact bs =
        .error (.unsupportedVersion (toI32 (leWord ((bs.drop 10).take 4)))) := by
      unfold read_header
      rw [pbind_run hrd, ht, if_pos hmag, hd, if_neg hver]
      rfl
    unfold read_model
    rw [pbind_fail hh]
  · intro bs m rest h
    replace h : read_model readExact bs = .ok (m, rest) := h
    unfold read_model at h
    obtain ⟨header, bs1, h1, h⟩ := pbind_ok_iff.mp h
    obtain ⟨vertices, bs2, h2, h⟩ := pbind_ok_iff.mp h
    obtain ⟨triangles, bs3, h3, h⟩ := pbind_ok_iff.mp h
    obtain ⟨groups, bs4, h4, h⟩ := pbind_ok_iff.mp h
    obtain ⟨materials, bs5, h5, h⟩ := pbind_ok_iff.mp h
    obtain ⟨kfd, bs6, h6, h⟩ := pbind_ok_iff.mp h
    obtain ⟨joints, bs7, h7, h⟩ := pbind_ok_iff.mp h
    obtain ⟨comments, bs8, h8, h⟩ := pbind_ok_iff.mp h
    obtain ⟨vx, bs9, h9, h⟩ := pbind_ok_iff.mp h
    obtain ⟨jx, bs10, h10, h⟩ := pbind_ok_iff.mp h
    obtain ⟨mx, bs11, h11, h⟩ := pbind_ok_iff.mp h
    simp only [ppure, Except.ok.injEq, Prod.mk.injEq] at h
    obtain ⟨rfl, rfl⟩ := h
    unfold read_header at h1
    by_cases hbig : 14 > bs.length
    · have he : readExact 14 bs = .error .eof := by
        unfold readExact liftSrc sliceReaderRead
        rw [if_pos hbig]
      rw [pbind_fail he] at h1
      simp at h1
    · have hrd : readExact 14 bs = .ok (bs.take 14, bs.drop 14) := by
        unfold readExact liftSrc sliceReaderRead
        rw [if_neg hbig]
      rw [pbind_run hrd] at h1
      by_cases hmag : (bs.take 14).take 10 = [77, 83, 51, 68, 48, 48, 48, 48, 48, 48]
      · rw [if_pos hmag] at h1
        by_cases hver : toI32 (leWord ((bs.take 14).drop 10)) = 4
        · rw [if_pos hver] at h1
          simp only [ppure, Except.ok.injEq, Prod.mk.injEq] at h1
          obtain ⟨rfl, rfl⟩ := h1
          have ht : (bs.take 14).take 10 = bs.take 10 := by
            rw [List.take_take]
            norm_num
          constructor
          · rw [← ht]
            exact hmag
          · exact hver
        · rw [if_neg hver] at h1
          simp [pfail] at h1
      · rw [if_neg hmag] at h1
        simp [pfail] at h1

/-- C3, witness: a single altered magic byte fails with the invalid-header
error, version 5 fails with the unsupported-version error, and the concrete
successful decode had the exact magic and version 4. -/
theorem C3_witness :
    from_bytes ([88, 83, 51, 68, 48, 48, 48, 48, 48, 48] ++ encI32 4) =
      .error .invalidHeader ∧
    from_bytes ([77, 83, 51, 68, 48, 48, 48, 48, 48, 48] ++ encI32 5) =
      .error (.unsupportedVersion 5) ∧
    (file_full.take 10 = [77, 83, 51, 68, 48, 48, 48, 48, 48, 48] ∧
      model0.header.version = 4) := by
  refine ⟨C3_theorem.1 _ (by decide) (by decide), ?_,
    C3_theorem.2.2 file_full model0 [] (by decide)⟩
  have h := C3_theorem.2.1 ([77, 83, 51, 68, 48, 48, 48, 48, 48, 48] ++ encI32 5)
    (by decide) (by decide) (by decide)
  have hv : toI32 (leWord (((([77, 83, 51, 68, 48, 48, 48, 48, 48, 48] ++
      encI32 5).drop 10)).take 4)) = 5 := by decide
  rw [hv] at h
  exact h

set_option maxRecDepth 4096 in
/-- C4: for every raw flags byte and each entity's allowed mask, the flags
conversion succeeds returning exactly the set bits iff no bit outside the
entity's allowed mask (all of which lie inside the named flags) is set, and
fails with the invalid-flags error whenever such a bit is set. -/
theorem C4_theorem : ∀ bits : Nat, bits < 256 →
    (convert_flags bits Vertex.ALLOWED_FLAGS =
      if bits &&& (255 ^^^ Vertex.ALLOWED_FLAGS) = 0 then .ok bits
      else .error (.invalidFlags bits)) ∧
    (convert_flags bits Triangle.ALLOWED_FLAGS =
      if bits &&& (255 ^^^ Triangle.ALLOWED_FLAGS) = 0 then .ok bits
      else .error (.invalidFlags bits)) ∧
    (convert_flags bits Group.ALLOWED_FLAGS =
      if bits &&& (255 ^^^ Group.ALLOWED_FLAGS) = 0 then .ok bits
      else .error (.invalidFlags bits)) ∧
    (convert_flags bits Joint.ALLOWED_FLAGS =
      if bits &&& (255 ^^^ Joint.ALLOWED_FLAGS) = 0 then .ok bits
      else .error (.invalidFlags bits)) := by
  decide

/-- C4, witness: flags 5 (SELECTED and SELECTED2) pass the vertex mask and
are preserved exactly; bit 8 (DIRTY) fails for a vertex; DIRTY with
SELECTED passes the joint mask. -/
theorem C4_witness :
    convert_flags 5 Vertex.ALLOWED_FLAGS = .ok 5 ∧
    convert_flags 8 Vertex.ALLOWED_FLAGS = .error (.invalidFlags 8) ∧
    convert_flags 9 Joint.ALLOWED_FLAGS = .ok 9 := by
  refine ⟨?_, ?_, ?_⟩
  · have h := (C4_theorem 5 (by decide)).1
    rw [if_pos (by decide)] at h
    exact h
  · have h := (C4_theorem 8 (by decide)).1
    rw [if_neg (by decide)] at h
    exact h
  · have h := (C4_theorem 9 (by decide)).2.2.2
    rw [if_pos (by decide)] at h
    exact h

/-- C5: the decoded Triangle record depends on the 16-bit on-disk flags
field only through its low byte — changing the high byte never changes the
outcome, so it can never cause an error; concretely, a triangle record with
high flag byte 255 still decodes, keeping exactly the low byte's bits. -/
theorem C5_theorem :
    (∀ (b0 b1 b1' : Nat) (rest : Bytes),
      read_triangle readExact (b0 :: b1 :: rest) =
        read_triangle readExact (b0 :: b1' :: rest)) ∧
    read_triangle readExact (5 :: 255 :: List.replicate 68 0) =
      .ok (⟨5, [0, 0, 0], [[0, 0, 0], [0, 0, 0], [0, 0, 0]], [0, 0, 0],
        [0, 0, 0], 0, 0⟩, []) := by
  constructor
  · intro b0 b1 b1' rest
    have key : ∀ c : Nat, read_triangle readExact (b0 :: c :: rest) =
        read_triangle_body readExact (b0 + 256 * c) rest := by
      intro c
      have hrd : readExact 2 (b0 :: c :: rest) = .ok ([b0, c], rest) := by
        unfold readExact liftSrc sliceReaderRead
        rw [if_neg (by simp only [List.length_cons]; omega)]
        rfl
      have h16 : read_u16 readExact (b0 :: c :: rest) = .ok (b0 + 256 * c, rest) := by
        unfold read_u16
        rw [pbind_run hrd]
        simp [ppure, leWord]
      unfold read_triangle
      rw [pbind_run h16]
    have hbody : ∀ n n' : Nat, n % 256 = n' % 256 →
        read_triangle_body readExact n rest = read_triangle_body readExact n' rest := by
      intro n n' hmod
      unfold read_triangle_body
      rw [hmod]
    rw [key b1, key b1']
    exact hbody _ _ (by rw [Nat.add_mul_mod_self_left, Nat.add_mul_mod_self_left])
  · decide

/-- C6, counterexample: a Comments block whose material-comment count field
holds −1 does not fail with a format-violation error — the count is used as
a length, the decoder tries to read comment records, and the decode dies
with an end-of-input (truncation-class) error. -/
theorem C6_counterexample :
    read_comments readExact (encI32 1 ++ encU32 0 ++ encI32 (-1)) = .error .eof ∧
    isValidationError .eof = false :=
  ⟨by decide, by decide⟩

/-- C6, amended: a negative signed 32-bit count is not rejected; `as usize`
sign-extends it to a length of at least 2^63 and the decoder attempts to
read that many records. With material count −1 and nothing following, the
decode fails with end-of-input; only the model-comment count field, whose
value is checked against 0 and 1, turns a negative count into a validation
error (the invalid-model-comment-count branch). -/
theorem C6_theorem :
    (∀ v : Int, -2147483648 ≤ v → v < 0 →
      i32AsUsize v = (18446744073709551616 + v).toNat ∧
        9223372036854775808 ≤ i32AsUsize v) ∧
    read_comments readExact (encI32 1 ++ encU32 0 ++ encI32 (-1)) = .error .eof ∧
    read_comments readExact
      (encI32 1 ++ (encU32 0 ++ (encI32 0 ++ (encI32 0 ++ encI32 (-1))))) =
      .error .invalidNumModelComments := by
  refine ⟨?_, by decide, by decide⟩
  intro v h1 h2
  unfold i32AsUsize
  constructor
  · omega
  · omega

/-- C6, witness for the amended claim at count −1. -/
theorem C6_witness :
    i32AsUsize (-1) = (18446744073709551616 + (-1 : Int)).toNat ∧
    9223372036854775808 ≤ i32AsUsize (-1) :=
  C6_theorem.1 (-1) (by norm_num) (by norm_num)

/-- C7: in the Comments block, a model-comment count of 0 succeeds with no
model comment, 1 succeeds with exactly one, any count from 2 up fails with
the invalid-model-comment-count error, and a whole file carrying count 2
fails to decode. -/
theorem C7_theorem :
    (∀ n : Int, 2 ≤ n → n < 2147483648 → ∀ rest : Bytes,
      read_comments readExact
        (encI32 1 ++ (encU32 0 ++ (encI32 0 ++ (encI32 0 ++ (encI32 n ++ rest))))) =
        .error .invalidNumModelComments) ∧
    (∀ rest : Bytes,
      read_comments readExact
        (encI32 1 ++ (encU32 0 ++ (encI32 0 ++ (encI32 0 ++ (encI32 0 ++ rest))))) =
        .ok (⟨1, [], [], [], none⟩, rest)) ∧
    (∀ c : Comment, WFComment c → ∀ rest : Bytes,
      read_comments readExact
        (encI32 1 ++ (encU32 0 ++ (encI32 0 ++ (encI32 0 ++
          (encI32 1 ++ (encComment c ++ rest)))))) =
        .ok (⟨1, [], [], [], some c⟩, rest)) ∧
    from_bytes file_mc2 = .error .invalidNumModelComments := by
  have r1 : i32Range 1 := by norm_num [i32Range]
  have r0 : i32Range 0 := by norm_num [i32Range]
  have hz : i32AsUsize 0 = 0 := by decide
  have ho : i32AsUsize 1 = 1 := by decide
  refine ⟨?_, ?_, ?_, by decide⟩
  · intro n h2 h31 rest
    have rn : i32Range n := ⟨by omega, by omega⟩
    have hn0 : i32AsUsize n ≠ 0 := by
      unfold i32AsUsize
      omega
    have hn1 : i32AsUsize n ≠ 1 := by
      unfold i32AsUsize
      omega
    unfold read_comments
    rw [pbind_run (produces_encI32 r1 _), if_pos rfl,
      pbind_run (produces_encU32 (by norm_num) _),
      pbind_run (show read_vec 0 (read_comment readExact) _ = .ok ([], _) from rfl),
      pbind_run (produces_encI32 r0 _), hz,
      pbind_run (show read_vec 0 (read_comment readExact) _ = .ok ([], _) from rfl),
      pbind_run (produces_encI32 r0 _), hz,
      pbind_run (show read_vec 0 (read_comment readExact) _ = .ok ([], _) from rfl),
      pbind_run (produces_encI32 rn _)]
    rw [if_neg hn0, if_neg hn1]
    exact pbind_fail rfl
  · intro rest
    unfold read_comments
    rw [pbind_run (produces_encI32 r1 _), if_pos rfl,
      pbind_run (produces_encU32 (by norm_num) _),
      pbind_run (show read_vec 0 (read_comment readExact) _ = .ok ([], _) from rfl),
      pbind_run (produces_encI32 r0 _), hz,
      pbind_run (show read_vec 0 (read_comment readExact) _ = .ok ([], _) from rfl),
      pbind_run (produces_encI32 r0 _), hz,
      pbind_run (show read_vec 0 (read_comment readExact) _ = .ok ([], _) from rfl),
      pbind_run (produces_encI32 r0 _), hz, if_pos rfl]
    rfl
  · intro c hc rest
    unfold read_comments
    rw [pbind_run (produces_encI32 r1 _), if_pos rfl,
      pbind_run (produces_encU32 (by norm_num) _),
      pbind_run (show read_vec 0 (read_comment readExact) _ = .ok ([], _) from rfl),
      pbind_run (produces_encI32 r0 _), hz,
      pbind_run (show read_vec 0 (read_comment readExact) _ = .ok ([], _) from rfl),
      pbind_run (produces_encI32 r0 _), hz,
      pbind_run (show read_vec 0 (read_comment readExact) _ = .ok ([], _) from rfl),
      pbind_run (produces_encI32 r1 _), ho, if_neg (by norm_num), if_pos rfl,
      pbind_run (pbind_run (produces_read_comment hc rest))]
    rfl

/-- C7, witness: counts 2, 0 and 1 at concrete inputs. -/
theorem C7_witness :
    read_comments readExact
      (encI32 1 ++ (encU32 0 ++ (encI32 0 ++ (encI32 0 ++ (encI32 2 ++ []))))) =
      .error .invalidNumModelComments ∧
    read_comments readExact
      (encI32 1 ++ (encU32 0 ++ (encI32 0 ++ (encI32 0 ++ (encI32 0 ++ []))))) =
      .ok (⟨1, [], [], [], none⟩, []) ∧
    read_comments readExact
      (encI32 1 ++ (encU32 0 ++ (encI32 0 ++ (encI32 0 ++
        (encI32 1 ++ (encComment ⟨0, []⟩ ++ [])))))) =
      .ok (⟨1, [], [], [], some ⟨0, []⟩⟩, []) :=
  ⟨C7_theorem.1 2 (by norm_num) (by norm_num) [],
    C7_theorem.2.1 [],
    C7_theorem.2.2.1 ⟨0, []⟩
      ⟨by norm_num [i32Range], by norm_num [usizeI32], by simp [byteValid], rfl⟩ []⟩

/-- C8: converting a fixed-size name or path byte array takes the prefix
before the first zero byte (the whole array when none exists) and succeeds
with exactly that prefix when it is valid UTF-8, failing with the
invalid-UTF-8 error otherwise — no lossy replacement. -/
theorem C8_theorem (bs : Bytes) :
    convert_string bs =
      (if utf8Valid (bs.takeWhile (· ≠ 0)) then .ok (bs.takeWhile (· ≠ 0))
       else .error .invalidUtf8) :=
  convert_string_eq bs

/-- C9: decoding any byte sequence through the streaming backend and
through the in-memory slice backend gives identical results — equal models
and remainders on success, and the same error otherwise. -/
theorem C9_theorem (bs : Bytes) : from_reader bs = from_bytes bs := by
  unfold from_reader from_bytes
  rw [liftSrc_io_eq_slice]

/-- C10: the slice byte source returns exactly the next `n` bytes and
shrinks the remaining input by exactly `n` when enough bytes remain, and
fails with an end-of-input error leaving the input untouched otherwise. -/
theorem C10_theorem (s : Bytes) (n : Nat) :
    (n ≤ s.length →
      sliceReaderRead s n = (.ok (s.take n), s.drop n) ∧
        (s.take n).length = n ∧ (s.drop n).length = s.length - n) ∧
    (s.length < n → sliceReaderRead s n = (.error .eof, s)) := by
  constructor
  · intro h
    refine ⟨?_, ?_, ?_⟩
    · unfold sliceReaderRead
      rw [if_neg (by omega)]
    · simp [List.length_take]
      omega
    · simp [List.length_drop]
  · intro h
    unfold sliceReaderRead
    rw [if_pos (by omega)]

/-- C10, witness: a concrete in-range and a concrete out-of-range read. -/
theorem C10_witness :
    sliceReaderRead [1, 2, 3] 2 = (.ok [1, 2], [3]) ∧
    ([1, 2, 3].drop 2).length = 3 - 2 ∧
    sliceReaderRead [1, 2, 3] 5 = (.error .eof, [1, 2, 3]) := by
  refine ⟨?_, ?_, (C10_theorem [1, 2, 3] 5).2 (by norm_num)⟩
  · have h := ((C10_theorem [1, 2, 3] 2).1 (by norm_num)).1
    simpa using h
  · exact ((C10_theorem [1, 2, 3] 2).1 (by norm_num)).2.2

end Ms3d
